import Mathlib

/-!
A shallow embedding of the service-dispatch core of the hyperbahn router
(`service-proxy.js`, `handler.js`, `circuits.js` and their collaborators),
together with theorems settling the frozen specification claims.

JavaScript objects used as string-keyed maps are embedded as association
lists preserving insertion order (`Object.keys` order for string keys).
JavaScript numeric quirks that the source relies on (signed 32-bit shifts,
comparisons against `undefined`, `Number` coercion of arrays) are embedded
explicitly by small helper functions.
-/

namespace Spec2Proof

/-- Lookup in a JavaScript object: `m[k]`, `undefined` becomes `none`. -/
def alGet {α : Type} (m : List (String × α)) (k : String) : Option α :=
  match m with
  | [] => none
  | (k', v) :: rest => if k' = k then some v else alGet rest k

/-- Assignment `m[k] = v`: overwrite in place if the key exists (keeping its
position in insertion order), otherwise append at the end. -/
def alSet {α : Type} (m : List (String × α)) (k : String) (v : α) : List (String × α) :=
  match m with
  | [] => [(k, v)]
  | (k', v') :: rest => if k' = k then (k', v) :: rest else (k', v') :: alSet rest k v

/-- Deletion `delete m[k]`. -/
def alDel {α : Type} (m : List (String × α)) (k : String) : List (String × α) :=
  match m with
  | [] => []
  | (k', v') :: rest => if k' = k then rest else (k', v') :: alDel rest k

/-- Update the value stored at `k` when present, otherwise leave the object
unchanged. -/
def alModify {α : Type} (m : List (String × α)) (k : String) (f : α → α) : List (String × α) :=
  match m with
  | [] => []
  | (k', v') :: rest => if k' = k then (k', f v') :: rest else (k', v') :: alModify rest k f

/-- `Object.keys(m)`, in insertion order. -/
def alKeys {α : Type} (m : List (String × α)) : List String :=
  m.map (fun p => p.1)

/-- Split a character list at a separator (helper for `String.split`). -/
def splitOnCharAux (sep : Char) : List Char → List Char → List String
  | [], acc => [String.mk acc.reverse]
  | c :: rest, acc =>
    if c = sep then String.mk acc.reverse :: splitOnCharAux sep rest []
    else splitOnCharAux sep rest (c :: acc)

/-- `s.split(sep)` for a single-character separator, as JavaScript's
`String.prototype.split`: the empty string yields `[""]`. -/
def jsSplit (s : String) (sep : Char) : List String :=
  splitOnCharAux sep s.data []

/-- Parse a non-empty all-digit character list as a decimal number. -/
def parseDigitsAux : List Char → Nat → Option Nat
  | [], acc => some acc
  | c :: rest, acc =>
    if c.isDigit then parseDigitsAux rest (acc * 10 + (c.toNat - 48))
    else none

/-- Parse a character list as a decimal number; empty or non-digit input
yields `none`. -/
def parseDigits (cs : List Char) : Option Nat :=
  match cs with
  | [] => none
  | _ => parseDigitsAux cs 0

/-- Whether the first list is a prefix of the second (character-wise). -/
def listIsPrefixOf : List Char → List Char → Bool
  | [], _ => true
  | _ :: _, [] => false
  | p :: ps, c :: cs => p = c && listIsPrefixOf ps cs

/-- `s.indexOf(pre) === 0`, i.e. `pre` is a prefix of `s`. -/
def strStartsWith (s pre : String) : Bool :=
  listIsPrefixOf pre.data s.data

/-- `arr.join(',')`. -/
def joinWithComma : List String → String
  | [] => ""
  | x :: rest => rest.foldl (fun acc y => acc ++ "," ++ y) x

/-- Truthiness of a JavaScript string-or-undefined value: `undefined` and the
empty string are falsy. -/
def jsTruthy (v : Option String) : Bool :=
  match v with
  | none => false
  | some x => x ≠ ""

/-- The JavaScript idiom `a || b` on a string-or-undefined `a` with a string
default `b`. -/
def jsOrStr (a : Option String) (b : String) : String :=
  match a with
  | none => b
  | some x => if x = "" then b else x

/-- `Number(s)` on the strings this development applies it to: the empty
string converts to `0`, a pure decimal-digit string converts to its value,
and anything else (in particular any string containing a comma or a letter)
converts to `NaN`, embedded as `none`. -/
def jsNumberOfString (s : String) : Option Int :=
  if s = "" then some 0
  else (parseDigits s.data).map Int.ofNat

/-- `parseInt(s, 10)` on non-negative inputs: parse the longest digit
prefix; no digit prefix gives `NaN` (`none`). -/
def jsParseInt10 (s : String) : Option Int :=
  (parseDigits (s.data.takeWhile Char.isDigit)).map Int.ofNat

/-- `ToInt32`: reduce modulo 2^32 into the signed 32-bit range. -/
def jsToInt32 (x : Int) : Int :=
  let m := x.emod 4294967296
  if m < 2147483648 then m else m - 4294967296

/-- The JavaScript left-shift `x << k`: the operand is converted to a 32-bit
integer, shifted with overflow discarded, and the result is read back as a
signed 32-bit integer. -/
def jsShl (x : Int) (k : Nat) : Int :=
  jsToInt32 (x.emod 4294967296 * (2 ^ (k % 32)))

/-- Insertion into a sorted list of strings (helper for `.sort()`). -/
def insertStr (x : String) (l : List String) : List String :=
  match l with
  | [] => [x]
  | y :: rest => if x ≤ y then x :: y :: rest else y :: insertStr x rest

/-- `Array.prototype.sort()` on an array of host-port strings (default
lexicographic string order). -/
def sortStrings (l : List String) : List String :=
  l.foldr insertStr []

/-! ## Discovery host encoding (`handler.js`, `convertHosts`) -/

/-- One entry of a discover response: `{ip: {ipv4: ...}, port: ...}`. -/
structure DiscoverPeer where
  ipv4 : Int
  port : Int
deriving DecidableEq, Repr

/-- Translation of one iteration of `convertHosts` (`handler.js` lines
364-381): split `host:port` on `:`, parse the port, split the address on
`.` and combine the four octets with JavaScript 32-bit shifts:
`d + (c << 8) + (b << 16) + (a << 24)`.  A missing part or a non-numeric
part makes the arithmetic `NaN`; that case is embedded as `none`. -/
def convertHost (host : String) : Option DiscoverPeer :=
  let strs := jsSplit host ':'
  match jsParseInt10 ((strs.getD 1 "")) with
  | none => none
  | some port =>
    let octs := jsSplit (strs.getD 0 "") '.'
    match jsParseInt10 (octs.getD 0 ""), jsParseInt10 (octs.getD 1 ""),
          jsParseInt10 (octs.getD 2 ""), jsParseInt10 (octs.getD 3 "") with
    | some a, some b, some c, some d =>
      some { ipv4 := d + jsShl c 8 + jsShl b 16 + jsShl a 24, port := port }
    | _, _, _, _ => none

/-- `convertHosts` maps the conversion over the peer host-port list. -/
def convertHosts (hosts : List String) : List (Option DiscoverPeer) :=
  hosts.map convertHost

/-! ## Relay advertise fan-out (`handler.js`, `sendRelay` / `logError`) -/

/-- `MAX_RELAY_AD_ATTEMPTS` (`handler.js` line 35). -/
def MAX_RELAY_AD_ATTEMPTS : Nat := 2

/-- `RELAY_AD_RETRY_TIME` in milliseconds (`handler.js` line 36). -/
def RELAY_AD_RETRY_TIME : Nat := 1000

/-- A transport error as seen by `Errors.classify` / `Errors.isFatal`. -/
structure RelayError where
  codeName : Option String
  fatal : Bool
deriving DecidableEq, Repr

/-- Outcome of one relay-ad attempt as delivered to `onResponse`: either an
`ok` response, or a failure carrying the error (`none` embeds the case of a
not-ok response frame with no error object). -/
inductive AttemptOutcome
  | ok
  | fail (err : Option RelayError)
deriving DecidableEq, Repr

/-- `Errors.classify(err)`: the classification code name, `null` for a
missing error. -/
def classifyErr (err : Option RelayError) : Option String :=
  match err with
  | none => none
  | some e => e.codeName

/-- `Errors.isFatal(err)`: false for a missing error. -/
def isFatalErr (err : Option RelayError) : Bool :=
  match err with
  | none => false
  | some e => e.fatal

/-- Observable events of a `sendRelay` run: attempts started, back-off
delays scheduled, log lines emitted, and the final callback invocation
(which carries the error argument passed to the callback). -/
inductive RelayEv
  | tried
  | delayed (ms : Nat)
  | loggedError (err : Option RelayError)
  | loggedWarn (err : Option RelayError)
  | calledBack (err : Option String)
deriving DecidableEq, Repr

/-- Configuration of the advertise handler relevant to `sendRelay`. -/
structure RelayCfg where
  maxRelayAdAttempts : Nat := MAX_RELAY_AD_ATTEMPTS
  relayAdRetryTime : Nat := RELAY_AD_RETRY_TIME
deriving DecidableEq, Repr

/-- Translation of `logError` (`handler.js` lines 332-350): fatal transport
errors are logged at error level, everything else at warn level. -/
def logError (err : Option RelayError) : RelayEv :=
  if isFatalErr err then RelayEv.loggedError err else RelayEv.loggedWarn err

/-- Translation of the `tryRequest`/`onResponse` loop of `sendRelay`
(`handler.js` lines 272-330).  The network is scripted: the n-th element of
`script` is the outcome the n-th attempt observes.  `attempts` is the
counter incremented at the top of `tryRequest`.  Returns the event list and
whether the callback fired (it always does when the script is long enough
to cover the attempts made). -/
def sendRelayGo (cfg : RelayCfg) (attempts : Nat) : List AttemptOutcome → List RelayEv × Bool
  | [] => ([], false)
  | o :: rest =>
    let attempts := attempts + 1
    match o with
    | AttemptOutcome.ok => ([RelayEv.tried, RelayEv.calledBack none], true)
    | AttemptOutcome.fail err =>
      if attempts ≤ cfg.maxRelayAdAttempts ∧ err.isSome ∧
          (classifyErr err = some "NetworkError" ∨ classifyErr err = some "Timeout") then
        let r := sendRelayGo cfg attempts rest
        (RelayEv.tried :: RelayEv.delayed cfg.relayAdRetryTime :: r.1, r.2)
      else
        ([RelayEv.tried, logError err, RelayEv.calledBack none], true)

/-- `sendRelay` starts with `attempts = 0`. -/
def sendRelay (cfg : RelayCfg) (script : List AttemptOutcome) : List RelayEv × Bool :=
  sendRelayGo cfg 0 script

/-- Whether an attempt outcome triggers the retry branch of `onResponse`
(an error object present whose classification is `NetworkError` or
`Timeout`). -/
def retryableOutcome (o : AttemptOutcome) : Bool :=
  match o with
  | AttemptOutcome.ok => false
  | AttemptOutcome.fail err =>
    err.isSome &&
      (classifyErr err = some "NetworkError" || classifyErr err = some "Timeout")

/-- Number of back-off delays scheduled in an event list. -/
def delayCount : List RelayEv → Nat
  | [] => 0
  | RelayEv.delayed _ :: rest => delayCount rest + 1
  | _ :: rest => delayCount rest

/-- Per-event well-formedness of a `sendRelay` run: every scheduled delay
is `relayAdRetryTime`, the callback always receives no error, error-level
log lines carry fatal errors and warn-level log lines carry non-fatal
ones. -/
def evsWellFormed (cfg : RelayCfg) (evs : List RelayEv) : Bool :=
  evs.all fun e =>
    match e with
    | RelayEv.delayed ms => ms == cfg.relayAdRetryTime
    | RelayEv.calledBack err => err == none
    | RelayEv.loggedError err => isFatalErr err
    | RelayEv.loggedWarn err => ! isFatalErr err
    | RelayEv.tried => true

/-! ## Circuits (`circuits.js`) -/

/-- The ring view the dispatcher consumes (`egress-nodes.js` interface):
`exitsFor` yields the exit host-ports for a service, `isExitFor` answers
whether this router is one of them. -/
structure Egress where
  exitsFor : String → List String
  isExitFor : String → Bool

/-- One circuit: the `(callerName, serviceName, endpointName)` triple (the
health state machine is not needed by the claims settled here). -/
structure Circuit where
  callerName : String
  serviceName : String
  endpointName : String
deriving DecidableEq, Repr

/-- `EndpointCircuits`: `circuitsByEndpointName`, keyed by `'$' + en`. -/
structure EndpointCircuits where
  circuitsByEndpointName : List (String × Circuit)
deriving DecidableEq, Repr

/-- `ServiceCircuits`: `circuitsByCallerName`, keyed by `'$' + cn`. -/
structure ServiceCircuits where
  circuitsByCallerName : List (String × EndpointCircuits)
deriving DecidableEq, Repr

/-- The `Circuits` root: `circuitsByServiceName`, keyed by `'$' + sn`. -/
structure CircuitsState where
  circuitsByServiceName : List (String × ServiceCircuits)
deriving DecidableEq, Repr

/-- `EndpointCircuits.prototype.getCircuit` (`circuits.js` lines 61-72):
create the circuit on first reference under the `'$'`-prefixed endpoint
key. -/
def EndpointCircuits.getCircuit (ec : EndpointCircuits) (cn sn en : String) : EndpointCircuits :=
  match alGet ec.circuitsByEndpointName ("$" ++ en) with
  | some _ => ec
  | none =>
    { circuitsByEndpointName :=
        alSet ec.circuitsByEndpointName ("$" ++ en)
          { callerName := cn, serviceName := sn, endpointName := en } }

/-- `ServiceCircuits.prototype.getCircuit` (`circuits.js` lines 90-98). -/
def ServiceCircuits.getCircuit (sc : ServiceCircuits) (cn sn en : String) : ServiceCircuits :=
  let circuits :=
    match alGet sc.circuitsByCallerName ("$" ++ cn) with
    | some c => c
    | none => { circuitsByEndpointName := [] }
  { circuitsByCallerName :=
      alSet sc.circuitsByCallerName ("$" ++ cn) (circuits.getCircuit cn sn en) }

/-- `Circuits.prototype.getCircuit` (`circuits.js` lines 137-145): the
service level is keyed by `'$' + serviceName`. -/
def CircuitsState.getCircuit (cs : CircuitsState) (cn sn en : String) : CircuitsState :=
  let circuits :=
    match alGet cs.circuitsByServiceName ("$" ++ sn) with
    | some c => c
    | none => { circuitsByCallerName := [] }
  { circuitsByServiceName :=
      alSet cs.circuitsByServiceName ("$" ++ sn) (circuits.getCircuit cn sn en) }

/-- Translation of `Circuits.prototype.updateServices` (`circuits.js` lines
187-196): iterate `Object.keys(circuitsByServiceName)` — which are the
`'$'`-prefixed storage keys — and delete every entry whose key fails
`egressNodes.isExitFor`.  Note that the stored key, prefix included, is what
gets passed to `isExitFor`. -/
def CircuitsState.updateServices (eg : Egress) (cs : CircuitsState) : CircuitsState :=
  let serviceNames := alKeys cs.circuitsByServiceName
  serviceNames.foldl
    (fun acc serviceName =>
      if ¬ eg.isExitFor serviceName then
        { circuitsByServiceName := alDel acc.circuitsByServiceName serviceName }
      else acc)
    cs

/-! ## Rate limiter -/

/-- A sliding-window counter with its current window sum and limit. -/
structure RLCounter where
  rps : Nat
  rpsLimit : Nat
deriving DecidableEq, Repr

/-- Modelled from the spec: `rate_limiter.js` is not among the provided
sources (only its tests and its callers are).  Per §4.5 the limiter keeps a
total counter, per-service counters, stats-only edge counters and
kill-switch counters (per-service plus a total tier), a list of exempt
services that bypass all checks, per-service limit overrides and defaults.
Bucket rotation is not needed by the claims settled here, so a counter is
its current window sum. -/
structure RateLimiter where
  totalRequestCounter : RLCounter
  serviceCounters : List (String × RLCounter)
  ksCounters : List (String × RLCounter)
  totalKsCounter : RLCounter
  edgeCounters : List (String × Nat)
  exemptServices : List String
  rpsLimitForServiceName : List (String × Nat)
  defaultServiceRpsLimit : Nat
  totalKillSwitchBuffer : Nat
deriving DecidableEq, Repr

/-- Modelled from the spec: the default limiter state used by the
dispatcher constructor (total limit 1000 and default service limit 100 per
the rate-limiter test expectations). -/
def RateLimiter.mk0 : RateLimiter :=
  { totalRequestCounter := { rps := 0, rpsLimit := 1000 }
    serviceCounters := []
    ksCounters := []
    totalKsCounter := { rps := 0, rpsLimit := 2000 }
    edgeCounters := []
    exemptServices := []
    rpsLimitForServiceName := []
    defaultServiceRpsLimit := 100
    totalKillSwitchBuffer := 2 }

/-- Modelled from the spec: the service limit is the per-service override
when present, otherwise the default. -/
def RateLimiter.getRpsLimitForService (rl : RateLimiter) (sn : String) : Nat :=
  match alGet rl.rpsLimitForServiceName sn with
  | some l => l
  | none => rl.defaultServiceRpsLimit

/-- Modelled from the spec: create the per-service counter on first use. -/
def RateLimiter.createServiceCounter (rl : RateLimiter) (sn : String) : RateLimiter :=
  match alGet rl.serviceCounters sn with
  | some _ => rl
  | none =>
    { rl with
      serviceCounters :=
        alSet rl.serviceCounters sn { rps := 0, rpsLimit := rl.getRpsLimitForService sn } }

/-- Modelled from the spec: create the kill-switch counter on first use;
its limit is `totalKillSwitchBuffer · serviceLimit` (§3). -/
def RateLimiter.createKillSwitchServiceCounter (rl : RateLimiter) (sn : String) : RateLimiter :=
  match alGet rl.ksCounters sn with
  | some _ => rl
  | none =>
    { rl with
      ksCounters :=
        alSet rl.ksCounters sn
          { rps := 0, rpsLimit := rl.totalKillSwitchBuffer * rl.getRpsLimitForService sn } }

/-- Modelled from the spec: exempt services bypass all checks; otherwise
the total kill-switch counter is compared against its limit. -/
def RateLimiter.shouldKillSwitchTotalRequest (rl : RateLimiter) (sn : String) : Bool :=
  if rl.exemptServices.contains sn then false
  else rl.totalKsCounter.rps ≥ rl.totalKsCounter.rpsLimit

/-- Modelled from the spec: per-service kill-switch decision. -/
def RateLimiter.shouldKillSwitchService (rl : RateLimiter) (sn : String) : Bool :=
  if rl.exemptServices.contains sn then false
  else match alGet rl.ksCounters sn with
    | none => false
    | some c => c.rps ≥ c.rpsLimit

/-- Modelled from the spec: the total RPS decision boundary is "at or over
the limit" (§8 property 7: the first request with `rps ≥ L` is rejected). -/
def RateLimiter.shouldRateLimitTotalRequest (rl : RateLimiter) (sn : String) : Bool :=
  if rl.exemptServices.contains sn then false
  else rl.totalRequestCounter.rps ≥ rl.totalRequestCounter.rpsLimit

/-- Modelled from the spec: the per-service RPS decision. -/
def RateLimiter.shouldRateLimitService (rl : RateLimiter) (sn : String) : Bool :=
  if rl.exemptServices.contains sn then false
  else match alGet rl.serviceCounters sn with
    | none => false
    | some c => c.rps ≥ c.rpsLimit

/-- Modelled from the spec: stats-only edge counter increment. -/
def RateLimiter.incrementEdgeCounter (rl : RateLimiter) (edge : String) : RateLimiter :=
  { rl with
    edgeCounters := alSet rl.edgeCounters edge (((alGet rl.edgeCounters edge).getD 0) + 1) }

/-- Modelled from the spec: total kill-switch counter increment. -/
def RateLimiter.incrementKillSwitchTotalCounter (rl : RateLimiter) (_sn : String) : RateLimiter :=
  { rl with totalKsCounter := { rl.totalKsCounter with rps := rl.totalKsCounter.rps + 1 } }

/-- Modelled from the spec: per-service kill-switch counter increment. -/
def RateLimiter.incrementKillSwitchServiceCounter (rl : RateLimiter) (sn : String) : RateLimiter :=
  { rl with ksCounters := alModify rl.ksCounters sn (fun c => { c with rps := c.rps + 1 }) }

/-- Modelled from the spec: total counter increment. -/
def RateLimiter.incrementTotalCounter (rl : RateLimiter) (_sn : String) : RateLimiter :=
  { rl with totalRequestCounter :=
      { rl.totalRequestCounter with rps := rl.totalRequestCounter.rps + 1 } }

/-- Modelled from the spec: per-service counter increment. -/
def RateLimiter.incrementServiceCounter (rl : RateLimiter) (sn : String) : RateLimiter :=
  { rl with serviceCounters := alModify rl.serviceCounters sn (fun c => { c with rps := c.rps + 1 }) }

/-- `removeServiceCounter` (used by the service purger). -/
def RateLimiter.removeServiceCounter (rl : RateLimiter) (sn : String) : RateLimiter :=
  { rl with serviceCounters := alDel rl.serviceCounters sn }

/-- `removeKillSwitchCounter` (used by the service purger). -/
def RateLimiter.removeKillSwitchCounter (rl : RateLimiter) (sn : String) : RateLimiter :=
  { rl with ksCounters := alDel rl.ksCounters sn }

/-! ## Partial range -/

/-- Modelled from the spec: `partial_range.js` is not among the provided
sources.  Per §4.4, a `PartialRange` maps the sorted relays and sorted
workers of a service to this relay's contiguous (wrap-around) window of
workers; it is valid only when this relay appears in the relays list. -/
structure PartialRange where
  relayHostPort : String
  minPeersPerWorker : Nat
  minPeersPerRelay : Nat
  relays : List String := []
  workers : List String := []
  relayIndex : Option Nat := none
  rangeLength : Nat := 0
  rangeStart : Nat := 0
  rangeStop : Nat := 0
  affineWorkers : List String := []
deriving DecidableEq, Repr

/-- `isValid()`: the relay found itself in the relays list. -/
def PartialRange.isValid (pr : PartialRange) : Bool :=
  pr.relayIndex.isSome

/-- Modelled from the spec (§4.4): recompute the range; a `none` argument
keeps the previously stored relays or workers (the source passes `null`
for the unchanged side).  `length = min(|workers|, max(minPeersPerRelay,
ceil(|workers|·minPeersPerWorker / |relays|)))` and
`start = floor(relayIndex·|workers|/|relays|) mod |workers|`. -/
def PartialRange.compute (pr : PartialRange)
    (relays? workers? : Option (List String)) (_now : Nat) : PartialRange :=
  let relays := relays?.getD pr.relays
  let workers := workers?.getD pr.workers
  match relays.findIdx? (fun r => r = pr.relayHostPort) with
  | none =>
    { pr with
      relays := relays
      workers := workers
      relayIndex := none
      rangeLength := 0
      rangeStart := 0
      rangeStop := 0
      affineWorkers := [] }
  | some i =>
    if workers.length = 0 then
      { pr with
        relays := relays
        workers := workers
        relayIndex := some i
        rangeLength := 0
        rangeStart := 0
        rangeStop := 0
        affineWorkers := [] }
    else
      let r := relays.length
      let w := workers.length
      let len := min w (max pr.minPeersPerRelay ((w * pr.minPeersPerWorker + r - 1) / r))
      let start := (i * w / r) % w
      { pr with
        relays := relays
        workers := workers
        relayIndex := some i
        rangeLength := len
        rangeStart := start
        rangeStop := start + len
        affineWorkers := (List.range len).map (fun k => workers.getD ((start + k) % w) "") }

/-- Modelled from the spec: `addWorker` inserts the host-port into the
sorted workers list (when new) and recomputes. -/
def PartialRange.addWorker (pr : PartialRange) (hp : String) (now : Nat) : PartialRange :=
  if pr.workers.contains hp then pr.compute none none now
  else pr.compute none (some (insertStr hp pr.workers)) now

/-- Modelled from the spec: `removeWorker` removes the host-port and
recomputes. -/
def PartialRange.removeWorker (pr : PartialRange) (hp : String) (now : Nat) : PartialRange :=
  pr.compute none (some (pr.workers.erase hp)) now

/-! ## Service dispatch handler (`service-proxy.js`) -/

/-- `SERVICE_PURGE_PERIOD` (5 minutes, in ms). -/
def SERVICE_PURGE_PERIOD : Nat := 300000

/-- `DEFAULT_DRAIN_TIMEOUT` (30 seconds, in ms). -/
def DEFAULT_DRAIN_TIMEOUT : Nat := 30000

/-- `DEFAULT_MIN_PEERS_PER_WORKER`. -/
def DEFAULT_MIN_PEERS_PER_WORKER : Nat := 5

/-- `DEFAULT_MIN_PEERS_PER_RELAY`. -/
def DEFAULT_MIN_PEERS_PER_RELAY : Nat := 5

/-- `RATE_LIMIT_TOTAL`. -/
def RATE_LIMIT_TOTAL : String := "total"

/-- `RATE_LIMIT_SERVICE`. -/
def RATE_LIMIT_SERVICE : String := "service"

/-- `RATE_LIMIT_KILLSWITCH`. -/
def RATE_LIMIT_KILLSWITCH : String := "killswitch"

/-- Truthiness of a JavaScript number-or-undefined value: `undefined` and
`0` are falsy. -/
def jsTruthyNat (v : Option Nat) : Bool :=
  match v with
  | none => false
  | some n => n ≠ 0

/-- An in-flight drain on a transport peer, as passed to `peer.drain`. -/
structure DrainInfo where
  goal : String
  reason : String
  direction : String
  timeout : Nat
deriving DecidableEq, Repr

/-- A transport peer: its out-connection state, any in-flight drain, and
the duck-punched `serviceProxyServices` set. -/
structure Peer where
  connectedOut : Bool := false
  draining : Option DrainInfo := none
  serviceProxyServices : List String := []
deriving DecidableEq, Repr

/-- A sub channel of the relay channel.  Service channels carry the
duck-punched `serviceProxyMode`; other sub channels (such as `hyperbahn`)
have no mode.  `peerNames` is the channel's own peer list; the peer objects
themselves live in the shared transport peer table. -/
structure SubChannel where
  serviceName : String
  serviceProxyMode : Option String := none
  preferConnectionDirection : Option String := none
  peerNames : List String := []
  handlerHasCircuits : Bool := false
deriving DecidableEq, Repr

/-- An entry of `peersToPrune`. -/
structure PruneInfo where
  lastRefresh : Nat
  reason : String
deriving DecidableEq, Repr

/-- The mutable state of a `ServiceDispatchHandler` (constructor lines
56-253), together with the transport peer table it manipulates through
`self.channel`.  The ring view (`egressNodes`) is an external collaborator
and is passed to each operation separately. -/
structure SDHState where
  hostPort : String
  subChannels : List (String × SubChannel)
  peers : List (String × Peer)
  relaysFor : List (String × List String)
  partialRanges : List (String × PartialRange)
  exitServices : List (String × Nat)
  connectedServicePeers : List (String × List (String × Nat))
  connectedPeerServices : List (String × List (String × Nat))
  peersToReap : List (String × List (String × Nat))
  knownPeers : List (String × List (String × Nat))
  peersToPrune : List (String × PruneInfo)
  rateLimiter : RateLimiter
  rateLimiterEnabled : Bool
  partialAffinityEnabled : Bool
  minPeersPerWorker : Nat
  minPeersPerRelay : Nat
  drainTimeout : Nat
  servicePurgePeriod : Option Nat
  circuitsEnabled : Bool
  circuits : Option CircuitsState
  blockingTable : Option (List String)
  blockingTableRemoteConfig : Option (List String)
deriving DecidableEq, Repr

/-- The constructor options the embedding needs.  `servicePurgePeriod` is
consumed only as the purge scan interval. -/
structure SDHOptions where
  hostPort : String := "127.0.0.1:4040"
  servicePurgePeriod : Option Nat := none
  rateLimiterEnabled : Bool := false
  partialAffinityEnabled : Bool := false
  minPeersPerWorker : Option Nat := none
  minPeersPerRelay : Option Nat := none
  drainTimeout : Option Nat := none
deriving DecidableEq, Repr

/-- Translation of the field initialization of the `ServiceDispatchHandler`
constructor.  Every peer-state map starts empty (lines 132-139).  The
constructor reads `options.servicePurgePeriod` only to configure the purge
scan interval (line 199); no statement assigns `self.servicePurgePeriod`,
so that property stays `undefined` (`none`). -/
def mkServiceDispatchHandler (o : SDHOptions) : SDHState :=
  { hostPort := o.hostPort
    subChannels := []
    peers := []
    relaysFor := []
    partialRanges := []
    exitServices := []
    connectedServicePeers := []
    connectedPeerServices := []
    peersToReap := []
    knownPeers := []
    peersToPrune := []
    rateLimiter := RateLimiter.mk0
    rateLimiterEnabled := o.rateLimiterEnabled
    partialAffinityEnabled := o.partialAffinityEnabled
    minPeersPerWorker := o.minPeersPerWorker.getD DEFAULT_MIN_PEERS_PER_WORKER
    minPeersPerRelay := o.minPeersPerRelay.getD DEFAULT_MIN_PEERS_PER_RELAY
    drainTimeout := o.drainTimeout.getD DEFAULT_DRAIN_TIMEOUT
    servicePurgePeriod := none
    circuitsEnabled := false
    circuits := none
    blockingTable := none
    blockingTableRemoteConfig := none }

/-- `addIndexEntry` (lines 1619-1626). -/
def addIndexEntry (index : List (String × List (String × Nat)))
    (keya keyb : String) (value : Nat) : List (String × List (String × Nat)) :=
  match alGet index keya with
  | none => alSet index keya [(keyb, value)]
  | some level => alSet index keya (alSet level keyb value)

/-- `isObjectEmpty` (lines 1640-1645). -/
def isObjectEmpty {α : Type} (l : List (String × α)) : Bool :=
  l.isEmpty

/-- `deleteIndexEntry` (lines 1628-1636): the entry is deleted only when
`level[keyb]` is truthy (the stored timestamps are nonzero in practice),
and an emptied level is removed from the outer index. -/
def deleteIndexEntry (index : List (String × List (String × Nat)))
    (keya keyb : String) : List (String × List (String × Nat)) :=
  match alGet index keya with
  | none => index
  | some level =>
    if jsTruthyNat (alGet level keyb) then
      let level := alDel level keyb
      if isObjectEmpty level then alDel index keya else alSet index keya level
    else index

/-- Update one sub channel in place. -/
def modifySub (s : SDHState) (sn : String) (f : SubChannel → SubChannel) : SDHState :=
  { s with subChannels := alModify s.subChannels sn f }

/-- Update one transport peer in place. -/
def modifyPeer (s : SDHState) (hp : String) (f : Peer → Peer) : SDHState :=
  { s with peers := alModify s.peers hp f }

/-- Create the transport peer if it does not exist yet (the effect of
`peers.add` reaching the top channel). -/
def topEnsurePeer (s : SDHState) (hp : String) : SDHState :=
  match alGet s.peers hp with
  | some _ => s
  | none => { s with peers := alSet s.peers hp {} }

/-- Translation of `_getServicePeer` (lines 529-540): fetch the peer from
the service channel's list, creating it (shared with the transport table)
when absent, and mark the service in `peer.serviceProxyServices`. -/
def _getServicePeer (s : SDHState) (sn hp : String) : SDHState :=
  let inSub :=
    match alGet s.subChannels sn with
    | some ch => ch.peerNames.contains hp
    | none => false
  let s :=
    if inSub then s
    else modifySub (topEnsurePeer s hp) sn
      (fun ch => { ch with peerNames := ch.peerNames ++ [hp] })
  modifyPeer s hp (fun p =>
    if p.serviceProxyServices.contains sn then p
    else { p with serviceProxyServices := p.serviceProxyServices ++ [sn] })

/-- Translation of `createServiceChannel` (lines 542-598): resolve (and
cache) the sorted exit list, derive the mode from `egressNodes.isExitFor`,
create the sub channel (exit mode prefers out connections), pre-populate a
forward channel with the exit host-ports, and attach a relay handler that
carries the circuits registry only for exit channels with circuits
enabled. -/
def createServiceChannel (eg : Egress) (s : SDHState) (sn : String) : SDHState :=
  let cached := alGet s.relaysFor sn
  let exitNames :=
    match cached with
    | some names => names
    | none => sortStrings (eg.exitsFor sn)
  let s :=
    match cached with
    | some _ => s
    | none => { s with relaysFor := alSet s.relaysFor sn exitNames }
  let isExit := eg.isExitFor sn
  let mode := if isExit then "exit" else "forward"
  let ch : SubChannel :=
    { serviceName := sn
      serviceProxyMode := some mode
      preferConnectionDirection := if mode = "exit" then some "out" else none
      peerNames := []
      handlerHasCircuits := mode = "exit" && s.circuitsEnabled && s.circuits.isSome }
  let s := { s with subChannels := alSet s.subChannels sn ch }
  if mode = "forward" then
    exitNames.foldl (fun acc hp => _getServicePeer acc sn hp) s
  else s

/-- `getOrCreateServiceChannel` (lines 506-510). -/
def getOrCreateServiceChannel (eg : Egress) (s : SDHState) (sn : String) : SDHState :=
  if (alGet s.subChannels sn).isSome then s else createServiceChannel eg s sn

/-- Translation of `ensurePeerConnected` (lines 646-671): refresh the
secondary indices (partial affinity only), cancel any pending prune, and
when no out-connection exists, cancel an in-flight drain and connect. -/
def ensurePeerConnected (s : SDHState) (sn hp : String) (_reason : String) (now : Nat) :
    SDHState :=
  let s :=
    if s.partialAffinityEnabled then
      { s with
        connectedServicePeers := addIndexEntry s.connectedServicePeers sn hp now
        connectedPeerServices := addIndexEntry s.connectedPeerServices hp sn now }
    else s
  let s := { s with peersToPrune := alDel s.peersToPrune hp }
  match alGet s.peers hp with
  | none => s
  | some p =>
    if p.connectedOut then s
    else modifyPeer s hp (fun p => { p with draining := none, connectedOut := true })

/-- Translation of `ensurePeerDisconnected` (lines 902-918): clear the
secondary indices (partial affinity only); when the peer no longer serves
any connected service, schedule it for pruning. -/
def ensurePeerDisconnected (s : SDHState) (sn hp : String) (reason : String) (now : Nat) :
    SDHState :=
  let s :=
    if s.partialAffinityEnabled then
      { s with
        connectedServicePeers := deleteIndexEntry s.connectedServicePeers sn hp
        connectedPeerServices := deleteIndexEntry s.connectedPeerServices hp sn }
    else s
  let empty :=
    match alGet s.connectedPeerServices hp with
    | none => true
    | some level => isObjectEmpty level
  if empty then
    { s with peersToPrune := alSet s.peersToPrune hp { lastRefresh := now, reason := reason } }
  else s

/-- Translation of `getPartialRange` (lines 673-706): create and compute
the range on first reference (relays from the cached `relaysFor`, workers
from the sorted channel peer list); an invalid range — this relay absent
from the relays list — yields `null`. -/
def getPartialRange (eg : Egress) (s : SDHState) (sn : String) (_reason : String) (now : Nat) :
    SDHState × Option PartialRange :=
  match alGet s.partialRanges sn with
  | some pr => (s, if pr.isValid then some pr else none)
  | none =>
    let s := getOrCreateServiceChannel eg s sn
    let relays := (alGet s.relaysFor sn).getD []
    let workers := sortStrings (((alGet s.subChannels sn).map SubChannel.peerNames).getD [])
    let pr0 : PartialRange :=
      { relayHostPort := s.hostPort
        minPeersPerWorker := s.minPeersPerWorker
        minPeersPerRelay := s.minPeersPerRelay }
    let pr := pr0.compute (some relays) (some workers) now
    let s := { s with partialRanges := alSet s.partialRanges sn pr }
    (s, if pr.isValid then some pr else none)

/-- The result object of `ensurePartialConnections`. -/
structure EPCResult where
  noop : Bool
  toConnect : List String
  isAffine : List String
deriving DecidableEq, Repr

/-- Translation of `ensurePartialConnections` (lines 809-900): connect the
affine workers, disconnect connected peers that are neither affine nor
already scheduled for pruning; when there is nothing to do return a `noop`
result so the caller can refresh the secondary indices itself. -/
def ensurePartialConnections (eg : Egress) (s : SDHState) (sn : String)
    (_hp : Option String) (reason : String) (now : Nat) : SDHState × Option EPCResult :=
  let (s, pr?) := getPartialRange eg s sn reason now
  match pr? with
  | none => (s, none)
  | some partialRange =>
    let connectedPeerKeys := ((alGet s.connectedServicePeers sn).map alKeys).getD []
    let s := partialRange.affineWorkers.foldl (fun acc w => _getServicePeer acc sn w) s
    let toConnect := partialRange.affineWorkers
    let isAffine := partialRange.affineWorkers
    let toDisconnect := connectedPeerKeys.filter
      (fun w => ¬ isAffine.contains w ∧ ¬ (alGet s.peersToPrune w).isSome)
    if toConnect.isEmpty ∧ toDisconnect.isEmpty then
      (s, some { noop := true, toConnect := toConnect, isAffine := isAffine })
    else
      let s := toConnect.foldl
        (fun acc w =>
          ensurePeerConnected (_getServicePeer acc sn w) sn w "service peer affinity change" now)
        s
      let s := toDisconnect.foldl
        (fun acc w =>
          ensurePeerDisconnected (_getServicePeer acc sn w) sn w
            "service peer affinity change" now)
        s
      (s, some { noop := false, toConnect := toConnect, isAffine := isAffine })

/-- Translation of `deletePeerIndex` (lines 635-644). -/
def deletePeerIndex (s : SDHState) (sn hp : String) : SDHState :=
  let s :=
    if s.partialAffinityEnabled then
      { s with
        connectedServicePeers := deleteIndexEntry s.connectedServicePeers sn hp
        connectedPeerServices := deleteIndexEntry s.connectedPeerServices hp sn }
    else s
  { s with knownPeers := deleteIndexEntry s.knownPeers hp sn }

/-- Translation of `freshenPartialPeer` (lines 754-807): refresh the
secondary indices according to the recorded connectedness, unmark the peer
for reaping and remark it as known, then audit against the partial range —
when the range is available its affinity verdict overrides the recorded
state — and finally ensure the corresponding connection state. -/
def freshenPartialPeer (eg : Egress) (s : SDHState) (sn hp : String) (now : Nat) : SDHState :=
  let connected0 := (alGet s.connectedServicePeers sn).bind (fun level => alGet level hp)
  let isConn := jsTruthyNat connected0
  let s :=
    if isConn then
      { s with
        connectedServicePeers := addIndexEntry s.connectedServicePeers sn hp now
        connectedPeerServices := addIndexEntry s.connectedPeerServices hp sn now
        peersToPrune := alDel s.peersToPrune hp }
    else
      { s with
        connectedServicePeers := deleteIndexEntry s.connectedServicePeers sn hp
        connectedPeerServices := deleteIndexEntry s.connectedPeerServices hp sn }
  let s := { s with peersToReap := deleteIndexEntry s.peersToReap hp sn }
  let s := { s with knownPeers := addIndexEntry s.knownPeers hp sn now }
  let (s, pr?) := getPartialRange eg s sn "refresh partial peer audit" now
  let connected : Bool :=
    match pr? with
    | some pr => pr.affineWorkers.contains hp
    | none => isConn
  if connected then ensurePeerConnected s sn hp "service peer affinity refresh" now
  else ensurePeerDisconnected s sn hp "service peer affinity refresh" now

/-- Translation of `refreshServicePeerPartially` (lines 708-752): freshen a
known peer; otherwise record the new worker in the partial range, create
the service peer, update the reap/known indices and run
`ensurePartialConnections`, refreshing the secondary indices directly when
that was a noop. -/
def refreshServicePeerPartially (eg : Egress) (s : SDHState) (sn hp : String) (now : Nat) :
    SDHState :=
  let inSub :=
    match alGet s.subChannels sn with
    | some ch => ch.peerNames.contains hp
    | none => false
  if inSub then freshenPartialPeer eg s sn hp now
  else
    let s :=
      match alGet s.partialRanges sn with
      | some pr => { s with partialRanges := alSet s.partialRanges sn (pr.addWorker hp now) }
      | none => s
    let s := _getServicePeer s sn hp
    let s := { s with peersToReap := deleteIndexEntry s.peersToReap hp sn }
    let s := { s with knownPeers := addIndexEntry s.knownPeers hp sn now }
    let (s, result?) := ensurePartialConnections eg s sn (some hp) "advertise" now
    match result? with
    | some r =>
      if r.noop then
        if r.isAffine.contains hp then
          { s with
            connectedServicePeers := addIndexEntry s.connectedServicePeers sn hp now
            connectedPeerServices := addIndexEntry s.connectedPeerServices hp sn now
            peersToPrune := alDel s.peersToPrune hp }
        else
          { s with
            connectedServicePeers := deleteIndexEntry s.connectedServicePeers sn hp
            connectedPeerServices := deleteIndexEntry s.connectedPeerServices hp sn }
      else s
    | none => s

/-- Translation of `refreshServicePeer` (lines 600-633): only exit-mode
channels accept advertises; stamp `exitServices[serviceName] = now`; then
either the partial-affinity path, or the legacy path: cancel any pending
prune, unmark the peer for reaping, mark it known, create the service peer
and ensure an out-connection. -/
def refreshServicePeer (eg : Egress) (s : SDHState) (sn hp : String) (now : Nat) : SDHState :=
  let s := getOrCreateServiceChannel eg s sn
  match alGet s.subChannels sn with
  | none => s
  | some ch =>
    if ch.serviceProxyMode ≠ some "exit" then s
    else
      let s := { s with exitServices := alSet s.exitServices sn now }
      if s.partialAffinityEnabled then refreshServicePeerPartially eg s sn hp now
      else
        let s := { s with peersToPrune := alDel s.peersToPrune hp }
        let s := { s with peersToReap := deleteIndexEntry s.peersToReap hp sn }
        let s := { s with knownPeers := addIndexEntry s.knownPeers hp sn now }
        let s := _getServicePeer (getOrCreateServiceChannel eg s sn) sn hp
        ensurePeerConnected s sn hp "service peer refresh" now

/-! ### Peer removal on unadvertise -/

/-- Observable transport-level effects of `removeServicePeer`. -/
inductive SPEffect
  | drainPeer (hp goal direction : String) (timeout : Nat)
  | retainedPeer (hp : String) (remainingServices : List String)
  | skippedReapDrain (hp : String)
deriving DecidableEq, Repr

/-- The body of the `remain` loop of `removeServicePeer`, for the
iterations that actually execute. -/
def remainGo (subChannels : List (String × SubChannel)) (keys : List String) (hp : String)
    (n : Int) (acc : List String) : Nat → Nat → Except String (List String)
  | _, 0 => Except.ok acc
  | i, fuel + 1 =>
    if (i : Int) < n then
      match keys.get? i with
      | none =>
        Except.error "TypeError: cannot read property of undefined (subChanKeys[i])"
      | some k =>
        match alGet subChannels k with
        | none => Except.error "TypeError: cannot read peers of undefined"
        | some ch =>
          remainGo subChannels keys hp n
            (if ch.peerNames.contains hp then acc ++ [k] else acc) (i + 1) fuel
    else Except.ok acc

/-- Translation of the `remain` computation of `removeServicePeer` (lines
958-965).  The source loop header is `for (var i = 0; i < subChanKeys;
i++)` — the index is compared against the key array itself, not its
length.  JavaScript converts the array to a string and then to a number:
unless all the service names joined by commas form a numeric literal the
bound is `NaN`, every comparison is false, and the loop body never runs. -/
def computeRemain (subChannels : List (String × SubChannel)) (hp : String) :
    Except String (List String) :=
  let subChanKeys := alKeys subChannels
  match jsNumberOfString (joinWithComma subChanKeys) with
  | none => Except.ok []
  | some n => remainGo subChannels subChanKeys hp n [] 0 n.toNat

/-- Translation of `removeServicePeer` (lines 920-1024): delete the peer
from the service channel, rerun the partial-affinity reconciliation, then
— guarded by the (dead) `remain` check — skip an ongoing reap drain, or
drain the peer with goal `close-peer`, direction `both` and
`drainTimeout`, deleting it from the transport peer table on completion. -/
def removeServicePeer (eg : Egress) (s : SDHState) (sn hp : String) (now : Nat) :
    Except String (SDHState × List SPEffect) :=
  match alGet s.subChannels sn with
  | none => Except.ok (s, [])
  | some _ =>
    match alGet s.peers hp with
    | none => Except.ok (s, [])
    | some _ =>
      let s := modifySub s sn (fun ch => { ch with peerNames := ch.peerNames.erase hp })
      let s :=
        if s.partialAffinityEnabled then
          let s :=
            match alGet s.partialRanges sn with
            | some pr =>
              let workers :=
                sortStrings (((alGet s.subChannels sn).map SubChannel.peerNames).getD [])
              { s with partialRanges := alSet s.partialRanges sn (pr.compute none (some workers) now) }
            | none => s
          let (s, result?) := ensurePartialConnections eg s sn (some hp) "unadvertise" now
          match result? with
          | some r =>
            if r.noop then
              { s with
                connectedServicePeers := deleteIndexEntry s.connectedServicePeers sn hp
                connectedPeerServices := deleteIndexEntry s.connectedPeerServices hp sn }
            else s
          | none => s
        else s
      match computeRemain s.subChannels hp with
      | Except.error e => Except.error e
      | Except.ok remain =>
        if remain ≠ [] then Except.ok (s, [SPEffect.retainedPeer hp remain])
        else
          match alGet s.peers hp with
          | none => Except.ok (s, [])
          | some peer =>
            let drainIt : SDHState → SDHState × List SPEffect := fun s =>
              let d : DrainInfo :=
                { goal := "close-peer"
                  reason := "closing due to unadvertisement"
                  direction := "both"
                  timeout := s.drainTimeout }
              let s := modifyPeer s hp (fun p => { p with draining := some d })
              ({ s with peers := alDel s.peers hp },
               [SPEffect.drainPeer hp "close-peer" "both" s.drainTimeout])
            match peer.draining with
            | some d =>
              if strStartsWith d.reason "reaped" then
                Except.ok (s, [SPEffect.skippedReapDrain hp])
              else
                Except.ok (drainIt (modifyPeer s hp (fun p => { p with draining := none })))
            | none => Except.ok (drainIt s)

/-! ### Peer reaping -/

/-- Translation of the body of the per-service loop of `reapSinglePeer`
(lines 1347-1356): delete the host-port from the service channel, clean
the peer indices, and call `removeWorker` on `partialRanges[serviceName]`.
The lookup is not guarded: when no partial range was ever computed for the
service the lookup yields `undefined` and the `removeWorker` call is a
TypeError, embedded as the error case. -/
def reapSinglePeerServiceStep (s : SDHState) (sn hp : String) (now : Nat) :
    Except String SDHState :=
  let s :=
    match alGet s.subChannels sn with
    | some _ => modifySub s sn (fun ch => { ch with peerNames := ch.peerNames.erase hp })
    | none => s
  let s := deletePeerIndex s sn hp
  match alGet s.partialRanges sn with
  | none => Except.error "TypeError: cannot read property removeWorker of undefined"
  | some pr => Except.ok { s with partialRanges := alSet s.partialRanges sn (pr.removeWorker hp now) }

/-- Translation of `reapSinglePeer` (lines 1315-1386).  `serviceNames` is
the value the interval scanner passes for the host-port, i.e. the
serviceName→lastRefresh map (see `peersToReap`); the loop header reads
`serviceNames.length`, which on that plain object is `undefined`, and
`0 < undefined` is false, so the per-service loop performs zero iterations
(its body is `reapSinglePeerServiceStep`).  The function then drains the
peer with goal `close-peer`, direction `both` and `drainTimeout`, and the
completion callback deletes it from the transport peer table. -/
def reapSinglePeer (s : SDHState) (hp : String)
    (_serviceTimes : List (String × Nat)) (_now : Nat) : SDHState :=
  if (alGet s.knownPeers hp).isSome then s
  else
    match alGet s.peers hp with
    | none => s
    | some peer =>
      let proceed : SDHState → SDHState := fun s =>
        let d : DrainInfo :=
          { goal := "close-peer"
            reason := "reaped for expired advertisement"
            direction := "both"
            timeout := s.drainTimeout }
        let s := modifyPeer s hp (fun p => { p with draining := some d })
        { s with peers := alDel s.peers hp }
      match peer.draining with
      | some d =>
        if ¬ strStartsWith d.reason "peer pruned" then s
        else proceed (modifyPeer s hp (fun p => { p with draining := none }))
      | none => proceed s

/-- One tick of the peer reaper (`peerReaper` construction, lines 170-194):
`getCollection` returns the old `peersToReap` and performs
`peersToReap := knownPeers; knownPeers := {}`; the scanner then calls
`reapSinglePeer(hostPort, collection[hostPort], now)` for each entry of the
drained collection. -/
def reapTick (s : SDHState) (now : Nat) : SDHState :=
  let drained := s.peersToReap
  let s := { s with peersToReap := s.knownPeers, knownPeers := [] }
  drained.foldl (fun acc e => reapSinglePeer acc e.1 e.2 now) s

/-- The claim-relevant components of the dispatcher state for reap
idempotence: `knownPeers`, `peersToReap`, the service channels' peer sets
and the transport peer table. -/
structure ReapObs where
  knownPeers : List (String × List (String × Nat))
  peersToReap : List (String × List (String × Nat))
  channelPeers : List (String × List String)
  transportPeers : List (String × Peer)
deriving DecidableEq, Repr

/-- Project the reap-relevant components out of a dispatcher state. -/
def reapObservation (s : SDHState) : ReapObs :=
  { knownPeers := s.knownPeers
    peersToReap := s.peersToReap
    channelPeers := s.subChannels.map (fun e => (e.1, e.2.peerNames))
    transportPeers := s.peers }

/-! ### Service purging -/

/-- Translation of the `each` callback of the service purger (lines
200-212).  The guard is `now - lastRefresh > self.servicePurgePeriod`; the
constructor never assigns `self.servicePurgePeriod`, and in JavaScript a
relational comparison against `undefined` is false. -/
def maybePurgeEachService (s : SDHState) (sn : String) (lastRefresh now : Nat) : SDHState :=
  let over : Bool :=
    match s.servicePurgePeriod with
    | none => false
    | some p => (now : Int) - (lastRefresh : Int) > (p : Int)
  if over then
    let s := { s with exitServices := alDel s.exitServices sn }
    match alGet s.subChannels sn with
    | none => s
    | some _ =>
      let s := { s with subChannels := alDel s.subChannels sn }
      { s with rateLimiter := (s.rateLimiter.removeServiceCounter sn).removeKillSwitchCounter sn }
  else s

/-- One tick of the service purger (`servicePurger` construction, lines
196-217): iterate the entries of `exitServices` (the collection is not
swapped out). -/
def servicePurgeTick (s : SDHState) (now : Nat) : SDHState :=
  s.exitServices.foldl (fun acc e => maybePurgeEachService acc e.1 e.2 now) s

/-! ### Membership reconciliation -/

/-- Translation of `changeToExit` (lines 1079-1100): set the mode to
`exit` and clear the channel's peers. -/
def changeToExit (s : SDHState) (sn : String) : SDHState :=
  modifySub s sn (fun ch => { ch with serviceProxyMode := some "exit", peerNames := [] })

/-- Translation of `updateServiceNodes` (lines 1102-1111). -/
def updateServiceNodes (eg : Egress) (s : SDHState) (sn : String) (now : Nat) : SDHState :=
  if s.partialAffinityEnabled then
    (ensurePartialConnections eg s sn none "topologyChange" now).1
  else s

/-- Translation of `changeToForward` (lines 1113-1154): set the mode to
`forward`, disconnect the existing worker peers, clear the channel's peer
set and re-populate it with the exit host-ports. -/
def changeToForward (s : SDHState) (exitNames : List String) (sn : String) (now : Nat) :
    SDHState :=
  let s := modifySub s sn (fun ch => { ch with serviceProxyMode := some "forward" })
  let olds := ((alGet s.subChannels sn).map SubChannel.peerNames).getD []
  let s := modifySub s sn (fun ch => { ch with peerNames := [] })
  let s := olds.foldl
    (fun acc hp => ensurePeerDisconnected acc sn hp "hyperbahn membership change" now) s
  exitNames.foldl (fun acc hp => _getServicePeer acc sn hp) s

/-- Translation of `updateExitNodes` (lines 1156-1170): drop peers that
are no longer exits, add the new exits. -/
def updateExitNodes (s : SDHState) (exitNames : List String) (sn : String) : SDHState :=
  let oldNames := ((alGet s.subChannels sn).map SubChannel.peerNames).getD []
  let s := oldNames.foldl
    (fun acc x =>
      if exitNames.contains x then acc
      else modifySub acc sn (fun ch => { ch with peerNames := ch.peerNames.erase x }))
    s
  exitNames.foldl (fun acc hp => _getServicePeer acc sn hp) s

/-- Translation of `updateServiceChannel` (lines 1045-1077): refresh the
cached sorted exit list, then reconcile the channel's mode and peers with
`egressNodes.isExitFor`. -/
def updateServiceChannel (eg : Egress) (s : SDHState) (sn : String) (now : Nat) : SDHState :=
  let exitNames := eg.exitsFor sn
  let s := { s with relaysFor := alSet s.relaysFor sn (sortStrings exitNames) }
  if eg.isExitFor sn then
    let s :=
      if s.partialAffinityEnabled then
        match alGet s.partialRanges sn with
        | some pr =>
          { s with partialRanges :=
              alSet s.partialRanges sn (pr.compute (some (sortStrings exitNames)) none now) }
        | none => s
      else s
    if ((alGet s.subChannels sn).map SubChannel.serviceProxyMode) = some (some "forward") then
      changeToExit s sn
    else updateServiceNodes eg s sn now
  else
    let s :=
      if s.partialAffinityEnabled then { s with partialRanges := alDel s.partialRanges sn }
      else s
    if ((alGet s.subChannels sn).map SubChannel.serviceProxyMode) = some (some "exit") then
      changeToForward s exitNames sn now
    else updateExitNodes s exitNames sn

/-- The loop body of `updateServiceChannels` (lines 1032-1038): update a
sub channel only when it carries a (truthy) `serviceProxyMode`. -/
def updateServiceChannelsStep (eg : Egress) (now : Nat) (acc : SDHState) (sn : String) :
    SDHState :=
  match alGet acc.subChannels sn with
  | some ch => if jsTruthy ch.serviceProxyMode then updateServiceChannel eg acc sn now else acc
  | none => acc

/-- Translation of `updateServiceChannels` (lines 1026-1043): update every
sub channel that carries a (truthy) `serviceProxyMode`, then let the
circuits registry drop services this router no longer owns. -/
def updateServiceChannels (eg : Egress) (s : SDHState) (now : Nat) : SDHState :=
  let serviceNames := alKeys s.subChannels
  let s := serviceNames.foldl (updateServiceChannelsStep eg now) s
  match s.circuits with
  | some cs => { s with circuits := some (cs.updateServices eg) }
  | none => s

/-- The `serviceProxyMode` of the sub channel stored under `k` (outer
`none` when no such channel exists). -/
def modeAt (s : SDHState) (k : String) : Option (Option String) :=
  (alGet s.subChannels k).map SubChannel.serviceProxyMode

/-- Mode well-formedness: every sub channel that carries a truthy
`serviceProxyMode` carries `exit` or `forward` — the only values the code
ever assigns. -/
def modesWF (s : SDHState) : Bool :=
  s.subChannels.all (fun p =>
    !(jsTruthy p.2.serviceProxyMode) ||
      (p.2.serviceProxyMode == some "exit" || p.2.serviceProxyMode == some "forward"))

/-! ### Request admission -/

/-- Translation of `isBlocked` (lines 1172-1193): a missing (or empty)
caller or service name defaults to `*`; the operator table and the
remote-config table are both consulted for the exact edge and the two
wildcard forms.  The tables are embedded as their key sets (the stored
`Date.now()` timestamps are truthy). -/
def isBlocked (s : SDHState) (cn? sn? : Option String) : Bool :=
  let cn := jsOrStr cn? "*"
  let sn := jsOrStr sn? "*"
  let hit : Option (List String) → Bool := fun t =>
    match t with
    | none => false
    | some keys =>
      keys.contains (cn ++ "~~" ++ sn) || keys.contains ("*~~" ++ sn) ||
        keys.contains (cn ++ "~~*")
  hit s.blockingTable || hit s.blockingTableRemoteConfig

/-- Translation of the dispatcher's `isExitFor` (lines 1236-1247): when a
sub channel exists its mode answers, otherwise the ring view is asked. -/
def SDHState.isExitFor (eg : Egress) (s : SDHState) (sn : String) : Bool :=
  match alGet s.subChannels sn with
  | none => eg.isExitFor sn
  | some ch => ch.serviceProxyMode = some "exit"

/-- The rate-limiter operations `rateLimit` performs, in evaluation
order. -/
inductive RLAction
  | incrEdge (key : String)
  | createServiceCtr (sn : String)
  | createKsCtr (sn : String)
  | checkKsTotal (sn : String)
  | checkKsService (sn : String)
  | incrKsTotal (sn : String)
  | incrKsService (sn : String)
  | checkRpsTotal (sn : String)
  | checkRpsService (sn : String)
  | incrTotal (sn : String)
  | incrService (sn : String)
deriving DecidableEq, Repr

/-- Translation of `rateLimit` (lines 463-504): count the edge; on exit
nodes ensure the service and kill-switch counters; apply the kill-switch
guard first (total, then per-service on exit nodes, with short-circuit
evaluation); then the total RPS check, then — exit nodes only — the
service RPS check; finally increment the counters.  Besides the resulting
reason string and limiter state, the performed operations are returned in
order. -/
def rateLimit (eg : Egress) (s : SDHState) (cn? : Option String) (sn : String) :
    String × SDHState × List RLAction :=
  let cnStr := match cn? with | some c => c | none => "undefined"
  let rl := s.rateLimiter.incrementEdgeCounter (cnStr ++ "~~" ++ sn)
  let tr := [RLAction.incrEdge (cnStr ++ "~~" ++ sn)]
  let isExitNode := SDHState.isExitFor eg s sn
  let rl := if isExitNode then (rl.createServiceCounter sn).createKillSwitchServiceCounter sn else rl
  let tr := if isExitNode then tr ++ [RLAction.createServiceCtr sn, RLAction.createKsCtr sn] else tr
  let ksTotal := rl.shouldKillSwitchTotalRequest sn
  let tr := tr ++ [RLAction.checkKsTotal sn]
  if ksTotal then (RATE_LIMIT_KILLSWITCH, { s with rateLimiter := rl }, tr)
  else
    let ksService := isExitNode && rl.shouldKillSwitchService sn
    let tr := if isExitNode then tr ++ [RLAction.checkKsService sn] else tr
    if ksService then (RATE_LIMIT_KILLSWITCH, { s with rateLimiter := rl }, tr)
    else
      let rl := rl.incrementKillSwitchTotalCounter sn
      let tr := tr ++ [RLAction.incrKsTotal sn]
      let rl := if isExitNode then rl.incrementKillSwitchServiceCounter sn else rl
      let tr := if isExitNode then tr ++ [RLAction.incrKsService sn] else tr
      let rpsTotal := rl.shouldRateLimitTotalRequest sn
      let tr := tr ++ [RLAction.checkRpsTotal sn]
      if rpsTotal then (RATE_LIMIT_TOTAL, { s with rateLimiter := rl }, tr)
      else
        let rpsService := isExitNode && rl.shouldRateLimitService sn
        let tr := if isExitNode then tr ++ [RLAction.checkRpsService sn] else tr
        if rpsService then (RATE_LIMIT_SERVICE, { s with rateLimiter := rl }, tr)
        else
          let rl := rl.incrementTotalCounter sn
          let tr := tr ++ [RLAction.incrTotal sn]
          let rl := if isExitNode then rl.incrementServiceCounter sn else rl
          let tr := if isExitNode then tr ++ [RLAction.incrService sn] else tr
          ("", { s with rateLimiter := rl }, tr)

/-- An eager-path incoming request as `handleRequest` sees it. -/
structure Req where
  serviceName : String
  cn : Option String := none
  rd : Option String := none
  hasConnOps : Bool := true
deriving DecidableEq, Repr

/-- What the handler did with a request: sent an error frame, silently
popped the in-request, logged instead of popping (the self-connection
carve-out), or handed it to the relay handler of the named channel. -/
inductive ReqOutcome
  | errorFrame (codeName msg : String)
  | popped
  | warnedNoPop
  | handedOff (sn : String)
deriving DecidableEq, Repr

/-- Admission checks performed on a request, each recording the service
name it was given: the block check, the rate-limit check, and the
service-channel lookup/creation. -/
inductive AdmissionCheck
  | blockFor (sn : String)
  | rateLimitFor (sn : String)
  | channelFor (sn : String)
deriving DecidableEq, Repr

/-- The service-name argument an admission check received. -/
def AdmissionCheck.arg : AdmissionCheck → String
  | AdmissionCheck.blockFor sn => sn
  | AdmissionCheck.rateLimitFor sn => sn
  | AdmissionCheck.channelFor sn => sn

/-- Translation of `handleRequest` (lines 383-461): reject a missing
service name; resolve the routing delegate (`nextService`); block check
against `nextService`; rate limit against `nextService` with the
kill-switch / total / service outcomes; finally look up or create the
service channel for `nextService` and hand off.  The returned check list
records which admission checks ran and the service name each was given. -/
def handleRequest (eg : Egress) (s : SDHState) (req : Req) :
    SDHState × ReqOutcome × List AdmissionCheck :=
  if req.serviceName = "" then
    (s, ReqOutcome.errorFrame "BadRequest" "no service name given", [])
  else
    let routingDelegate := req.rd
    let nextService := jsOrStr routingDelegate req.serviceName
    let checks := [AdmissionCheck.blockFor nextService]
    if isBlocked s req.cn (some nextService) then (s, ReqOutcome.popped, checks)
    else
      let dispatch : SDHState → List AdmissionCheck → SDHState × ReqOutcome × List AdmissionCheck :=
        fun s checks =>
          let checks := checks ++ [AdmissionCheck.channelFor nextService]
          (getOrCreateServiceChannel eg s nextService, ReqOutcome.handedOff nextService, checks)
      if s.rateLimiterEnabled then
        let checks := checks ++ [AdmissionCheck.rateLimitFor nextService]
        let r := rateLimit eg s req.cn nextService
        let reason := r.1
        let s := r.2.1
        if reason = RATE_LIMIT_KILLSWITCH then
          (s, if req.hasConnOps then ReqOutcome.popped else ReqOutcome.warnedNoPop, checks)
        else if reason = RATE_LIMIT_TOTAL then
          (s, ReqOutcome.errorFrame "Busy"
            ("hyperbahn node is rate-limited by the total rps of " ++
              toString s.rateLimiter.totalRequestCounter.rpsLimit), checks)
        else if reason = RATE_LIMIT_SERVICE then
          let serviceLimit := s.rateLimiter.getRpsLimitForService nextService
          (s, ReqOutcome.errorFrame "Busy"
            (if jsTruthy routingDelegate then
              "Routing delegate " ++ jsOrStr routingDelegate "" ++
                " is rate-limited by the service rps of " ++ toString serviceLimit
             else
              req.serviceName ++ " is rate-limited by the service rps of " ++
                toString serviceLimit), checks)
        else dispatch s checks
      else dispatch s checks

/-- A lazily handled request frame as `handleLazily` reads it: the results
of the lazy serviceName and header reads. -/
structure LazyFrame where
  readServiceOk : Bool := true
  serviceName : String
  readHeadersOk : Bool := true
  rd : Option String := none
  cn : Option String := none
deriving DecidableEq, Repr

/-- Translation of `handleLazily` (lines 259-381): reject unreadable
frames, a missing service name and a missing `cn` header; resolve the
routing delegate (`nextService = routingDelegate || serviceName`); the
block check is performed with the declared `serviceName` (line 328), the
rate-limit check and the service-channel lookup/creation with
`nextService`.  The returned check list records which admission checks ran
and the service name each was given. -/
def handleLazily (eg : Egress) (s : SDHState) (f : LazyFrame) :
    SDHState × ReqOutcome × List AdmissionCheck :=
  if ¬ f.readServiceOk then
    (s, ReqOutcome.errorFrame "BadRequest" "failed to read serviceName", [])
  else if f.serviceName = "" then
    (s, ReqOutcome.errorFrame "BadRequest" "missing serviceName", [])
  else if ¬ f.readHeadersOk then
    (s, ReqOutcome.errorFrame "BadRequest" "failed to read headers", [])
  else
    let routingDelegate := f.rd
    let nextService := jsOrStr routingDelegate f.serviceName
    if ¬ jsTruthy f.cn then
      (s, ReqOutcome.errorFrame "BadRequest" "missing cn header", [])
    else
      let checks := [AdmissionCheck.blockFor f.serviceName]
      if isBlocked s f.cn (some f.serviceName) then (s, ReqOutcome.popped, checks)
      else
        let dispatch : SDHState → List AdmissionCheck →
            SDHState × ReqOutcome × List AdmissionCheck :=
          fun s checks =>
            let checks := checks ++ [AdmissionCheck.channelFor nextService]
            (getOrCreateServiceChannel eg s nextService, ReqOutcome.handedOff nextService, checks)
        if s.rateLimiterEnabled then
          let checks := checks ++ [AdmissionCheck.rateLimitFor nextService]
          let r := rateLimit eg s f.cn nextService
          let reason := r.1
          let s := r.2.1
          if reason = RATE_LIMIT_KILLSWITCH then (s, ReqOutcome.popped, checks)
          else if reason = RATE_LIMIT_TOTAL then
            (s, ReqOutcome.errorFrame "Busy"
              ("hyperbahn node is rate-limited by the total rps of " ++
                toString s.rateLimiter.totalRequestCounter.rpsLimit), checks)
          else if reason = RATE_LIMIT_SERVICE then
            let serviceLimit := s.rateLimiter.getRpsLimitForService nextService
            (s, ReqOutcome.errorFrame "Busy"
              (if jsTruthy routingDelegate then
                "Routing delegate " ++ jsOrStr routingDelegate "" ++
                  " is rate-limited by the service rps of " ++ toString serviceLimit
               else
                f.serviceName ++ " is rate-limited by the service rps of " ++
                  toString serviceLimit), checks)
          else dispatch s checks
        else dispatch s checks

/-- Check-trace well-formedness: every block check received `declared`,
every rate-limit check and channel lookup received `effective`. -/
def checkArgsOk (declared effective : String) (cs : List AdmissionCheck) : Bool :=
  cs.all (fun c =>
    match c with
    | AdmissionCheck.blockFor sn => sn == declared
    | AdmissionCheck.rateLimitFor sn => sn == effective
    | AdmissionCheck.channelFor sn => sn == effective)

/-! ## Example states -/

/-- A ring view for a one-router ring that exits every service. -/
def egAll : Egress :=
  { exitsFor := fun _ => ["10.0.0.1:4040"], isExitFor := fun _ => true }

/-- A freshly constructed dispatcher with default options. -/
def exampleHandler : SDHState :=
  mkServiceDispatchHandler { hostPort := "10.0.0.1:4040" }

/-- The dispatcher after the worker `1.1.1.1:4280` advertised the service
`steve` at time 1000 (legacy path, partial affinity disabled — the
defaults). -/
def exampleAdvertised : SDHState :=
  refreshServicePeer egAll exampleHandler "steve" "1.1.1.1:4280" 1000

/-- The dispatcher after `1.1.1.1:4280` additionally advertised the
service `bob` at time 2000, so the peer sits in two service channels. -/
def exampleTwoServices : SDHState :=
  refreshServicePeer egAll exampleAdvertised "bob" "1.1.1.1:4280" 2000

/-- A circuits registry holding one circuit, for caller `bob` calling
service `steve` at endpoint `echo` (stored under the key `$steve`). -/
def exampleCircuits : CircuitsState :=
  CircuitsState.getCircuit { circuitsByServiceName := [] } "bob" "steve" "echo"

/-- A ring view under which this router is an exit for exactly the service
`steve`. -/
def egSteveOnly : Egress :=
  { exitsFor := fun sn => if sn == "steve" then ["10.0.0.1:4040"] else []
    isExitFor := fun sn => sn == "steve" }

/-- A lazily read frame declaring service `steve` with routing delegate
`mars`. -/
def exampleLazyFrame : LazyFrame :=
  { serviceName := "steve", rd := some "mars", cn := some "alice" }

/-- An eager request declaring service `steve` with routing delegate
`mars`. -/
def exampleRdReq : Req :=
  { serviceName := "steve", rd := some "mars", cn := some "alice" }

/-! ## Helper lemmas -/

theorem jsOrStr_some_of_ne (r b : String) (h : r ≠ "") : jsOrStr (some r) b = r := by
  simp [jsOrStr, h]

theorem checkArgsOk_ite (c : Prop) [Decidable c]
    (a b : SDHState × ReqOutcome × List AdmissionCheck) (d e : String) :
    checkArgsOk d e (if c then a else b).2.2 =
      if c then checkArgsOk d e a.2.2 else checkArgsOk d e b.2.2 := by
  split <;> rfl

theorem checkArgsOk_mem (d e : String) (cs : List AdmissionCheck)
    (h : checkArgsOk d e cs = true) :
    ∀ c ∈ cs, AdmissionCheck.arg c =
      match c with
      | AdmissionCheck.blockFor _ => d
      | _ => e := by
  intro c hc
  simp only [checkArgsOk, List.all_eq_true] at h
  have hcc := h c hc
  cases c <;> simp_all [AdmissionCheck.arg]

theorem handleLazily_checkArgs (eg : Egress) (s : SDHState) (f : LazyFrame) (r : String)
    (hf : f.rd = some r) (hr : r ≠ "") :
    checkArgsOk f.serviceName r (handleLazily eg s f).2.2 = true := by
  simp only [handleLazily, hf, jsOrStr_some_of_ne r _ hr, checkArgsOk_ite]
  simp [checkArgsOk, ite_self]

theorem handleRequest_checkArgs (eg : Egress) (s : SDHState) (req : Req) (r : String)
    (hreq : req.rd = some r) (hr : r ≠ "") :
    checkArgsOk r r (handleRequest eg s req).2.2 = true := by
  simp only [handleRequest, hreq, jsOrStr_some_of_ne r _ hr, checkArgsOk_ite]
  simp [checkArgsOk, ite_self]

theorem sendRelayGo_delay_bound (cfg : RelayCfg) (script : List AttemptOutcome) :
    ∀ attempts : Nat,
      delayCount (sendRelayGo cfg attempts script).1 ≤ cfg.maxRelayAdAttempts - attempts ∧
      delayCount (sendRelayGo cfg attempts script).1 ≤
        (script.takeWhile retryableOutcome).length := by
  induction script with
  | nil => intro attempts; simp [sendRelayGo, delayCount]
  | cons o rest ih =>
    intro attempts
    match o with
    | AttemptOutcome.ok => simp [sendRelayGo, delayCount]
    | AttemptOutcome.fail err =>
      simp only [sendRelayGo]
      split
      · rename_i hcond
        have h1 := (ih (attempts + 1)).1
        have h2 := (ih (attempts + 1)).2
        have hretry : retryableOutcome (AttemptOutcome.fail err) = true := by
          simp only [retryableOutcome]
          rcases hcond with ⟨hle, hsome, hclass⟩
          simp [hsome]
          rcases hclass with h | h
          · left; exact h
          · right; exact h
        rcases hcond with ⟨hle, _, _⟩
        constructor
        · simp only [delayCount]
          omega
        · rw [List.takeWhile_cons_of_pos hretry]
          simp only [delayCount, List.length_cons]
          omega
      · simp only [logError]
        split <;> simp [delayCount]

theorem sendRelayGo_wellFormed (cfg : RelayCfg) (script : List AttemptOutcome) :
    ∀ attempts : Nat, evsWellFormed cfg (sendRelayGo cfg attempts script).1 = true := by
  induction script with
  | nil => intro attempts; simp [sendRelayGo, evsWellFormed]
  | cons o rest ih =>
    intro attempts
    match o with
    | AttemptOutcome.ok => simp [sendRelayGo, evsWellFormed]
    | AttemptOutcome.fail err =>
      simp only [sendRelayGo]
      split
      · have h := ih (attempts + 1)
        simp only [evsWellFormed, List.all_cons] at h ⊢
        simp [h]
      · simp only [logError]
        split <;> rename_i hf <;> simp [evsWellFormed, List.all_cons, hf]

theorem sendRelayGo_completes (cfg : RelayCfg) (script : List AttemptOutcome) :
    ∀ attempts : Nat, script ≠ [] →
      cfg.maxRelayAdAttempts < attempts + script.length →
      (sendRelayGo cfg attempts script).2 = true := by
  induction script with
  | nil => intro attempts h; exact absurd rfl h
  | cons o rest ih =>
    intro attempts _ hlen
    match o with
    | AttemptOutcome.ok => simp [sendRelayGo]
    | AttemptOutcome.fail err =>
      simp only [sendRelayGo]
      split
      · rename_i hcond
        have hrest : rest ≠ [] := by
          rcases hcond with ⟨hle, _, _⟩
          simp only [List.length_cons] at hlen
          intro hempty
          rw [hempty] at hlen
          simp at hlen
          omega
        have := ih (attempts + 1) hrest (by simp only [List.length_cons] at hlen ⊢; omega)
        simpa using this
      · simp

theorem evsWellFormed_mem (cfg : RelayCfg) (evs : List RelayEv)
    (h : evsWellFormed cfg evs = true) :
    (∀ ms, RelayEv.delayed ms ∈ evs → ms = cfg.relayAdRetryTime) ∧
    (∀ e, RelayEv.calledBack e ∈ evs → e = none) ∧
    (∀ err, RelayEv.loggedError err ∈ evs → isFatalErr err = true) ∧
    (∀ err, RelayEv.loggedWarn err ∈ evs → isFatalErr err = false) := by
  simp only [evsWellFormed, List.all_eq_true] at h
  refine ⟨?_, ?_, ?_, ?_⟩
  · intro ms hm
    have := h _ hm
    simpa using this
  · intro e hm
    have := h _ hm
    simpa using this
  · intro err hm
    have := h _ hm
    simpa using this
  · intro err hm
    have := h _ hm
    simpa using this

theorem intEmod_small (x n : Int) (h0 : 0 ≤ x) (h : x < n) : x.emod n = x :=
  Int.emod_eq_of_lt h0 h

theorem jsShl_c8 (c : Nat) (h : c ≤ 255) : jsShl (c : Int) 8 = (c : Int) * 256 := by
  simp only [jsShl, jsToInt32]
  norm_num
  rw [intEmod_small (c : Int) 4294967296 (by positivity) (by omega)]
  rw [intEmod_small ((c : Int) * 256) 4294967296 (by positivity) (by omega)]
  omega

theorem jsShl_b16 (b : Nat) (h : b ≤ 255) : jsShl (b : Int) 16 = (b : Int) * 65536 := by
  simp only [jsShl, jsToInt32]
  norm_num
  rw [intEmod_small (b : Int) 4294967296 (by positivity) (by omega)]
  rw [intEmod_small ((b : Int) * 65536) 4294967296 (by positivity) (by omega)]
  omega

theorem jsShl_a24 (a : Nat) (h : a ≤ 255) :
    jsShl (a : Int) 24 = (a : Int) * 16777216 - (if 128 ≤ a then 4294967296 else 0) := by
  simp only [jsShl, jsToInt32]
  norm_num
  rw [intEmod_small (a : Int) 4294967296 (by positivity) (by omega)]
  rw [intEmod_small ((a : Int) * 16777216) 4294967296 (by positivity) (by omega)]
  split <;> split <;> omega

theorem reapSinglePeer_preserves (s : SDHState) (hp : String)
    (st : List (String × Nat)) (now : Nat) :
    (reapSinglePeer s hp st now).knownPeers = s.knownPeers ∧
    (reapSinglePeer s hp st now).peersToReap = s.peersToReap := by
  unfold reapSinglePeer
  split
  · exact ⟨rfl, rfl⟩
  · split
    · exact ⟨rfl, rfl⟩
    · split
      · split
        · exact ⟨rfl, rfl⟩
        · exact ⟨rfl, rfl⟩
      · exact ⟨rfl, rfl⟩

theorem reapFold_preserves (now : Nat) (l : List (String × List (String × Nat)))
    (s : SDHState) :
    ((l.foldl (fun acc e => reapSinglePeer acc e.1 e.2 now) s).knownPeers = s.knownPeers) ∧
    ((l.foldl (fun acc e => reapSinglePeer acc e.1 e.2 now) s).peersToReap = s.peersToReap) := by
  induction l generalizing s with
  | nil => exact ⟨rfl, rfl⟩
  | cons e rest ih =>
    simp only [List.foldl_cons]
    have h := reapSinglePeer_preserves s e.1 e.2 now
    have h2 := ih (reapSinglePeer s e.1 e.2 now)
    exact ⟨h2.1.trans h.1, h2.2.trans h.2⟩

theorem reapTick_swapEta (t : SDHState) (h1 : t.peersToReap = []) (h2 : t.knownPeers = []) :
    ({ t with peersToReap := t.knownPeers, knownPeers := [] } : SDHState) = t := by
  cases t
  simp_all

theorem reapTick_quiescent (t : SDHState) (n : Nat)
    (h1 : t.peersToReap = []) (h2 : t.knownPeers = []) : reapTick t n = t := by
  simp only [reapTick]
  rw [h1]
  simp only [List.foldl_nil]
  exact reapTick_swapEta t h1 h2

/-- Whether a rate-limiter operation is one of the kill-switch checks. -/
def isKsCheck : RLAction → Bool
  | RLAction.checkKsTotal _ => true
  | RLAction.checkKsService _ => true
  | _ => false

/-- Whether a rate-limiter operation is one of the RPS checks. -/
def isRpsCheck : RLAction → Bool
  | RLAction.checkRpsTotal _ => true
  | RLAction.checkRpsService _ => true
  | _ => false

/-- No kill-switch check occurs after any RPS check in the operation
list: the kill-switch tier runs first. -/
def noKsAfterRpsCheck : List RLAction → Bool
  | [] => true
  | a :: rest =>
    (if isRpsCheck a then rest.all (fun b => ! isKsCheck b) else true) && noKsAfterRpsCheck rest

theorem rateLimit_order (eg : Egress) (s : SDHState) (cn? : Option String) (sn : String) :
    noKsAfterRpsCheck (rateLimit eg s cn? sn).2.2 = true ∧
    RLAction.checkKsTotal sn ∈ (rateLimit eg s cn? sn).2.2 ∧
    (∀ x, RLAction.checkKsService x ∈ (rateLimit eg s cn? sn).2.2 →
      SDHState.isExitFor eg s sn = true) ∧
    (∀ x, RLAction.checkRpsService x ∈ (rateLimit eg s cn? sn).2.2 →
      SDHState.isExitFor eg s sn = true) := by
  simp only [rateLimit]
  by_cases hex : SDHState.isExitFor eg s sn <;> simp only [hex] <;>
    repeat' split <;>
    simp_all [noKsAfterRpsCheck, isKsCheck, isRpsCheck]

theorem rateLimit_total_at_limit (eg : Egress) (s : SDHState) (cn? : Option String)
    (sn : String) :
    (rateLimit eg s cn? sn).1 = RATE_LIMIT_TOTAL →
    (rateLimit eg s cn? sn).2.1.rateLimiter.totalRequestCounter.rps ≥
      (rateLimit eg s cn? sn).2.1.rateLimiter.totalRequestCounter.rpsLimit := by
  simp only [rateLimit]
  by_cases hex : SDHState.isExitFor eg s sn <;> simp only [hex] <;> repeat' split
  all_goals intro h
  all_goals simp_all [RATE_LIMIT_TOTAL, RATE_LIMIT_KILLSWITCH, RATE_LIMIT_SERVICE,
    RateLimiter.shouldRateLimitTotalRequest]

theorem handleRequest_killswitch_pops (eg : Egress) (s : SDHState) (req : Req)
    (hsn : ¬ req.serviceName = "")
    (hnb : isBlocked s req.cn (some (jsOrStr req.rd req.serviceName)) = false)
    (hrl : s.rateLimiterEnabled = true)
    (hks : (rateLimit eg s req.cn (jsOrStr req.rd req.serviceName)).1 =
      RATE_LIMIT_KILLSWITCH) :
    (∀ code msg, (handleRequest eg s req).2.1 ≠ ReqOutcome.errorFrame code msg) ∧
    (req.hasConnOps = true → (handleRequest eg s req).2.1 = ReqOutcome.popped) := by
  simp only [handleRequest, hsn, hnb, hrl, hks, if_false, if_true, Bool.false_eq_true,
    RATE_LIMIT_KILLSWITCH]
  constructor
  · intro code msg
    split <;> simp
  · intro hco
    simp [hco]

theorem handleRequest_total_busy (eg : Egress) (s : SDHState) (req : Req)
    (hsn : ¬ req.serviceName = "")
    (hnb : isBlocked s req.cn (some (jsOrStr req.rd req.serviceName)) = false)
    (hrl : s.rateLimiterEnabled = true)
    (ht : (rateLimit eg s req.cn (jsOrStr req.rd req.serviceName)).1 = RATE_LIMIT_TOTAL) :
    (handleRequest eg s req).2.1 =
      ReqOutcome.errorFrame "Busy"
        ("hyperbahn node is rate-limited by the total rps of " ++
          toString (rateLimit eg s req.cn
            (jsOrStr req.rd req.serviceName)).2.1.rateLimiter.totalRequestCounter.rpsLimit) := by
  simp [handleRequest, hsn, hnb, hrl, ht, RATE_LIMIT_TOTAL, RATE_LIMIT_KILLSWITCH]


theorem alGet_alModify {α : Type} (m : List (String × α)) (k k' : String) (f : α → α) :
    alGet (alModify m k f) k' = if k = k' then (alGet m k').map f else alGet m k' := by
  induction m with
  | nil => simp [alGet, alModify]
  | cons p rest ih =>
    obtain ⟨a, v⟩ := p
    simp only [alGet, alModify]
    by_cases h1 : a = k <;> by_cases h2 : k = k' <;> simp_all [alGet]

theorem alGet_mem {α : Type} (m : List (String × α)) (k : String) (v : α)
    (h : alGet m k = some v) : (k, v) ∈ m := by
  induction m with
  | nil => simp [alGet] at h
  | cons p rest ih =>
    obtain ⟨a, w⟩ := p
    simp only [alGet] at h
    by_cases ha : a = k
    · simp [ha] at h; simp [ha, h]
    · simp [ha] at h; simp [ih h]

theorem mem_alKeys_of_alGet {α : Type} (m : List (String × α)) (k : String) (v : α)
    (h : alGet m k = some v) : k ∈ alKeys m := by
  have := alGet_mem m k v h
  simp only [alKeys, List.mem_map]
  exact ⟨(k, v), this, rfl⟩

theorem modeAt_modifyPeer (s : SDHState) (hp : String) (f : Peer → Peer) (k : String) :
    modeAt (modifyPeer s hp f) k = modeAt s k := rfl

theorem modeAt_topEnsurePeer (s : SDHState) (hp : String) (k : String) :
    modeAt (topEnsurePeer s hp) k = modeAt s k := by
  unfold topEnsurePeer
  split <;> rfl

theorem modeAt_modifySub_pres (s : SDHState) (sn : String) (f : SubChannel → SubChannel)
    (k : String) (hf : ∀ ch, (f ch).serviceProxyMode = ch.serviceProxyMode) :
    modeAt (modifySub s sn f) k = modeAt s k := by
  simp only [modeAt, modifySub, alGet_alModify]
  split
  · cases alGet s.subChannels k <;> simp [hf]
  · rfl

theorem modeAt_getServicePeer (s : SDHState) (sn hp : String) (k : String) :
    modeAt (_getServicePeer s sn hp) k = modeAt s k := by
  simp only [_getServicePeer, modeAt_modifyPeer]
  split
  · rfl
  · rw [modeAt_modifySub_pres, modeAt_topEnsurePeer]
    intro ch
    rfl

theorem modeAt_foldGSP (sn : String) (l : List String) (s : SDHState) (k : String) :
    modeAt (l.foldl (fun acc hp => _getServicePeer acc sn hp) s) k = modeAt s k := by
  induction l generalizing s with
  | nil => rfl
  | cons x rest ih => simp only [List.foldl, ih, modeAt_getServicePeer]

theorem subChannels_ensurePeerConnected (s : SDHState) (sn hp r : String) (now : Nat) :
    (ensurePeerConnected s sn hp r now).subChannels = s.subChannels := by
  simp only [ensurePeerConnected, modifyPeer]
  repeat' split
  all_goals rfl

theorem subChannels_ensurePeerDisconnected (s : SDHState) (sn hp r : String) (now : Nat) :
    (ensurePeerDisconnected s sn hp r now).subChannels = s.subChannels := by
  simp only [ensurePeerDisconnected]
  repeat' split
  all_goals rfl

theorem modeAt_ensurePeerConnected (s : SDHState) (sn hp r : String) (now : Nat) (k : String) :
    modeAt (ensurePeerConnected s sn hp r now) k = modeAt s k := by
  simp only [modeAt, subChannels_ensurePeerConnected]

theorem modeAt_ensurePeerDisconnected (s : SDHState) (sn hp r : String) (now : Nat)
    (k : String) :
    modeAt (ensurePeerDisconnected s sn hp r now) k = modeAt s k := by
  simp only [modeAt, subChannels_ensurePeerDisconnected]

theorem subChannels_getPartialRange (eg : Egress) (s : SDHState) (sn r : String) (now : Nat)
    (h : (alGet s.subChannels sn).isSome) :
    (getPartialRange eg s sn r now).1.subChannels = s.subChannels := by
  simp only [getPartialRange, getOrCreateServiceChannel, h, if_true]
  split <;> rfl

theorem modeAt_ensurePartialConnections (eg : Egress) (s : SDHState) (sn : String)
    (hp? : Option String) (r : String) (now : Nat) (k : String)
    (h : (alGet s.subChannels sn).isSome) :
    modeAt (ensurePartialConnections eg s sn hp? r now).1 k = modeAt s k := by
  have hsub := subChannels_getPartialRange eg s sn r now h
  simp only [ensurePartialConnections]
  cases hg : getPartialRange eg s sn r now with
  | mk s1 pr? =>
    rw [hg] at hsub
    replace hsub : s1.subChannels = s.subChannels := hsub
    cases pr? with
    | none => simp [modeAt, hsub]
    | some pr =>
      simp only []
      have hm1 : ∀ k', modeAt s1 k' = modeAt s k' := by
        intro k'; simp [modeAt, hsub]
      split
      · rw [modeAt_foldGSP, hm1]
      · have hfold1 :
            ∀ (l : List String) (t : SDHState) (k' : String),
              modeAt (l.foldl (fun acc w =>
                ensurePeerConnected (_getServicePeer acc sn w) sn w
                  "service peer affinity change" now) t) k' = modeAt t k' := by
          intro l
          induction l with
          | nil => intro t k'; rfl
          | cons x rest ih =>
            intro t k'
            simp only [List.foldl, ih, modeAt_ensurePeerConnected, modeAt_getServicePeer]
        have hfold2 :
            ∀ (l : List String) (t : SDHState) (k' : String),
              modeAt (l.foldl (fun acc w =>
                ensurePeerDisconnected (_getServicePeer acc sn w) sn w
                  "service peer affinity change" now) t) k' = modeAt t k' := by
          intro l
          induction l with
          | nil => intro t k'; rfl
          | cons x rest ih =>
            intro t k'
            simp only [List.foldl, ih, modeAt_ensurePeerDisconnected, modeAt_getServicePeer]
        rw [hfold2, hfold1, modeAt_foldGSP, hm1]

theorem modeAt_updateServiceNodes (eg : Egress) (s : SDHState) (sn : String) (now : Nat)
    (k : String) (h : (alGet s.subChannels sn).isSome) :
    modeAt (updateServiceNodes eg s sn now) k = modeAt s k := by
  simp only [updateServiceNodes]
  split
  · exact modeAt_ensurePartialConnections eg s sn none "topologyChange" now k h
  · rfl

theorem modeAt_changeToExit_self (s : SDHState) (sn : String)
    (h : (alGet s.subChannels sn).isSome) :
    modeAt (changeToExit s sn) sn = some (some "exit") := by
  simp only [changeToExit, modeAt, modifySub, alGet_alModify, if_pos rfl]
  cases halGet : alGet s.subChannels sn with
  | none => rw [halGet] at h; simp at h
  | some ch => simp

theorem modeAt_changeToExit_ne (s : SDHState) (sn k : String) (h : ¬ sn = k) :
    modeAt (changeToExit s sn) k = modeAt s k := by
  simp only [changeToExit, modeAt, modifySub, alGet_alModify, if_neg h]

theorem modeAt_foldEPD (sn r : String) (now : Nat) (l : List String) (t : SDHState)
    (k : String) :
    modeAt (l.foldl (fun acc hp => ensurePeerDisconnected acc sn hp r now) t) k =
      modeAt t k := by
  induction l generalizing t with
  | nil => rfl
  | cons x rest ih => simp only [List.foldl, ih, modeAt_ensurePeerDisconnected]

theorem modeAt_changeToForward_self (s : SDHState) (exitNames : List String) (sn : String)
    (now : Nat) (h : (alGet s.subChannels sn).isSome) :
    modeAt (changeToForward s exitNames sn now) sn = some (some "forward") := by
  simp only [changeToForward]
  rw [modeAt_foldGSP, modeAt_foldEPD, modeAt_modifySub_pres]
  · simp only [modeAt, modifySub, alGet_alModify, if_pos rfl]
    cases halGet : alGet s.subChannels sn with
    | none => rw [halGet] at h; simp at h
    | some ch => simp
  · intro ch
    rfl

theorem modeAt_changeToForward_ne (s : SDHState) (exitNames : List String) (sn : String)
    (now : Nat) (k : String) (h : ¬ sn = k) :
    modeAt (changeToForward s exitNames sn now) k = modeAt s k := by
  simp only [changeToForward]
  rw [modeAt_foldGSP, modeAt_foldEPD, modeAt_modifySub_pres]
  · simp only [modeAt, modifySub, alGet_alModify, if_neg h]
  · intro ch
    rfl

theorem modeAt_updateExitNodes (s : SDHState) (exitNames : List String) (sn k : String) :
    modeAt (updateExitNodes s exitNames sn) k = modeAt s k := by
  simp only [updateExitNodes]
  rw [modeAt_foldGSP]
  have hfold :
      ∀ (l : List String) (t : SDHState),
        modeAt (l.foldl (fun acc x =>
          if exitNames.contains x then acc
          else modifySub acc sn (fun ch => { ch with peerNames := ch.peerNames.erase x })) t)
          k = modeAt t k := by
    intro l
    induction l with
    | nil => intro t; rfl
    | cons x rest ih =>
      intro t
      simp only [List.foldl, ih]
      split
      · rfl
      · rw [modeAt_modifySub_pres]
        intro ch
        rfl
  rw [hfold]

theorem modeAt_updateServiceChannel_self (eg : Egress) (s : SDHState) (sn : String)
    (now : Nat) (ch : SubChannel) (hch : alGet s.subChannels sn = some ch)
    (hmode : ch.serviceProxyMode = some "exit" ∨ ch.serviceProxyMode = some "forward") :
    modeAt (updateServiceChannel eg s sn now) sn =
      some (some (if eg.isExitFor sn then "exit" else "forward")) := by
  simp only [updateServiceChannel]
  repeat' split
  all_goals first
    | exact modeAt_changeToExit_self _ _ (by simp [hch])
    | exact modeAt_changeToForward_self _ _ _ _ (by simp [hch])
    | (rw [modeAt_updateServiceNodes] <;> simp_all [modeAt, hch])
    | (rw [modeAt_updateExitNodes]; simp_all [modeAt, hch])

theorem modeAt_updateServiceChannel_ne (eg : Egress) (s : SDHState) (sn : String)
    (now : Nat) (k : String) (hk : ¬ sn = k) (hch : (alGet s.subChannels sn).isSome) :
    modeAt (updateServiceChannel eg s sn now) k = modeAt s k := by
  simp only [updateServiceChannel]
  repeat' split
  all_goals first
    | (rw [modeAt_changeToExit_ne _ _ _ hk] <;> simp [modeAt])
    | (rw [modeAt_changeToForward_ne _ _ _ _ _ hk] <;> simp [modeAt])
    | (rw [modeAt_updateServiceNodes] <;> simp_all [modeAt])
    | (rw [modeAt_updateExitNodes]; simp_all [modeAt])

theorem step_none (eg : Egress) (now : Nat) (s : SDHState) (sn : String)
    (hsn : alGet s.subChannels sn = none) :
    updateServiceChannelsStep eg now s sn = s := by
  simp only [updateServiceChannelsStep, hsn]

theorem modeAt_step_skip (eg : Egress) (now : Nat) (s : SDHState) (sn : String)
    (ch0 : SubChannel) (hsn : alGet s.subChannels sn = some ch0)
    (ht0 : ¬ jsTruthy ch0.serviceProxyMode = true) :
    updateServiceChannelsStep eg now s sn = s := by
  simp only [updateServiceChannelsStep, hsn]
  rw [if_neg ht0]

theorem modeAt_step_self (eg : Egress) (now : Nat) (s : SDHState) (sn : String)
    (ch0 : SubChannel) (hsn : alGet s.subChannels sn = some ch0)
    (ht0 : jsTruthy ch0.serviceProxyMode = true)
    (hwf0 : ch0.serviceProxyMode = some "exit" ∨ ch0.serviceProxyMode = some "forward") :
    modeAt (updateServiceChannelsStep eg now s sn) sn =
      some (some (if eg.isExitFor sn then "exit" else "forward")) := by
  simp only [updateServiceChannelsStep, hsn, ht0, if_true]
  exact modeAt_updateServiceChannel_self eg s sn now ch0 hsn hwf0

theorem modeAt_step_ne (eg : Egress) (now : Nat) (s : SDHState) (sn k : String)
    (hk : ¬ sn = k) :
    modeAt (updateServiceChannelsStep eg now s sn) k = modeAt s k := by
  cases hsn : alGet s.subChannels sn with
  | none => rw [step_none eg now s sn hsn]
  | some ch0 =>
    by_cases ht0 : jsTruthy ch0.serviceProxyMode = true
    · have hstep : updateServiceChannelsStep eg now s sn = updateServiceChannel eg s sn now := by
        simp only [updateServiceChannelsStep, hsn, ht0, if_true]
      rw [hstep]
      exact modeAt_updateServiceChannel_ne eg s sn now k hk (by simp [hsn])
    · rw [modeAt_step_skip eg now s sn ch0 hsn ht0]

theorem foldUSC_modes (eg : Egress) (now : Nat) (l : List String) (s : SDHState)
    (hinv : ∀ k ch, alGet s.subChannels k = some ch → jsTruthy ch.serviceProxyMode = true →
      ch.serviceProxyMode = some (if eg.isExitFor k then "exit" else "forward") ∨
      (k ∈ l ∧ (ch.serviceProxyMode = some "exit" ∨ ch.serviceProxyMode = some "forward"))) :
    ∀ k ch,
      alGet (l.foldl (updateServiceChannelsStep eg now) s).subChannels k = some ch →
      jsTruthy ch.serviceProxyMode = true →
      ch.serviceProxyMode = some (if eg.isExitFor k then "exit" else "forward") := by
  induction l generalizing s with
  | nil =>
    intro k ch h ht
    rcases hinv k ch h ht with hc | ⟨hm, _⟩
    · exact hc
    · simp at hm
  | cons sn rest ih =>
    simp only [List.foldl]
    apply ih
    intro k ch h ht
    by_cases hk : sn = k
    · subst hk
      cases hsn : alGet s.subChannels sn with
      | none =>
        rw [step_none eg now s sn hsn, hsn] at h
        cases h
      | some ch0 =>
        by_cases ht0 : jsTruthy ch0.serviceProxyMode = true
        · have hwf0 : ch0.serviceProxyMode = some "exit" ∨
              ch0.serviceProxyMode = some "forward" := by
            rcases hinv sn ch0 hsn ht0 with hc | ⟨_, hwfk⟩
            · by_cases hex : eg.isExitFor sn = true
              · simp only [hex, if_true] at hc
                exact Or.inl hc
              · simp only [hex, if_false] at hc
                exact Or.inr hc
            · exact hwfk
          have hself := modeAt_step_self eg now s sn ch0 hsn ht0 hwf0
          rw [modeAt, h] at hself
          simp at hself
          exact Or.inl hself
        · rw [modeAt_step_skip eg now s sn ch0 hsn ht0, hsn] at h
          injection h with h
          exact absurd ht (h ▸ ht0)
    · have hne := modeAt_step_ne eg now s sn k hk
      rw [modeAt, modeAt, h] at hne
      cases hks : alGet s.subChannels k with
      | none =>
        rw [hks] at hne
        simp at hne
      | some ch' =>
        rw [hks] at hne
        simp at hne
        have ht' : jsTruthy ch'.serviceProxyMode = true := by
          rw [← hne] at *
          exact ht
        rcases hinv k ch' hks ht' with hc | ⟨hm, hwfk⟩
        · exact Or.inl (by rw [hne]; exact hc)
        · rcases List.mem_cons.mp hm with rfl | hmem
          · exact absurd rfl hk
          · exact Or.inr ⟨hmem, by rw [hne]; exact hwfk⟩

/-! ## Claim theorems -/

/-- Claim C1 (code bug): the service purger is supposed to remove, on every
tick, every `exitServices` entry older than the purge period, close and
delete its channel and drop its rate-limit counters.  Evaluating the code
at a service advertised at t = 1000 and purge-scanned at t = 301001 — its
age exceeds the default `SERVICE_PURGE_PERIOD` — shows the tick changes
nothing: the guard compares against the never-assigned
`self.servicePurgePeriod` (`undefined`), which is always false, so no
service is ever purged. -/
theorem servicePurger_retains_expired_service :
    (301001 : Int) - 1000 > (SERVICE_PURGE_PERIOD : Int) ∧
    exampleAdvertised.servicePurgePeriod = none ∧
    servicePurgeTick exampleAdvertised 301001 = exampleAdvertised ∧
    alGet exampleAdvertised.exitServices "steve" = some 1000 ∧
    (alGet exampleAdvertised.subChannels "steve").isSome := by
  refine ⟨by decide, by decide, by decide, by decide, by decide⟩

/-- Claim C3 (code bug): unadvertising `steve` for a peer that is still
present in the `bob` service channel is supposed to log and return with no
transport-level close.  Evaluating the code shows the peer is drained
(goal `close-peer`, direction `both`, timeout `drainTimeout` = 30000) and
deleted from the transport peer table anyway: the guard loop iterates
`for (i = 0; i < subChanKeys; i++)` against the key array itself, whose
number coercion (`Number("steve,bob")`) is `NaN`, so `remain` is always
empty and the retention branch is dead code. -/
theorem removeServicePeer_drains_peer_despite_remaining_service :
    ((alGet exampleTwoServices.subChannels "bob").map SubChannel.peerNames) =
      some ["1.1.1.1:4280"] ∧
    jsNumberOfString (joinWithComma (alKeys exampleTwoServices.subChannels)) = none ∧
    (removeServicePeer egAll exampleTwoServices "steve" "1.1.1.1:4280" 3000).map
        (fun r => (alGet r.1.peers "1.1.1.1:4280",
                   (alGet r.1.subChannels "bob").map SubChannel.peerNames, r.2)) =
      Except.ok (none, some ["1.1.1.1:4280"],
        [SPEffect.drainPeer "1.1.1.1:4280" "close-peer" "both" 30000]) :=
  ⟨by rfl, by rfl, by rfl⟩

/-- Claim C4 (code bug): after `updateServices`, circuit subtrees for
services the router still exits are supposed to be retained.  Evaluating
the code on a registry holding one circuit for service `steve`, on a
router that IS an exit for `steve`, shows the subtree is dropped: the
iteration passes the `'$'`-prefixed storage key (`"$steve"`) to
`egressNodes.isExitFor`, which fails, so the entry is deleted. -/
theorem updateServices_drops_retained_exit_service :
    egSteveOnly.isExitFor "steve" = true ∧
    (alGet exampleCircuits.circuitsByServiceName "$steve").isSome = true ∧
    (exampleCircuits.updateServices egSteveOnly).circuitsByServiceName = [] :=
  ⟨rfl, by rfl, by rfl⟩

/-- Claim C5, counterexample: starting from a state with a peer advertised
before the first tick (`knownPeers` nonempty), two consecutive reap ticks
with no intervening advertise do NOT leave the observed dispatcher state
(knownPeers, peersToReap, channel peer sets, transport peer table) equal to
the state after a single tick: the first tick rolls `knownPeers` into
`peersToReap`, and the second tick reaps that peer. -/
theorem reap_reap_differs_from_single_reap :
    reapObservation (reapTick (reapTick exampleAdvertised 400000) 700000) ≠
      reapObservation (reapTick exampleAdvertised 400000) := by
  decide

/-- Claim C5, amended: two consecutive reap ticks leave the dispatcher
state equal to the state after a single tick provided additionally that no
advertise happened in the window before the first tick either, i.e.
`knownPeers` is empty when the first tick runs.  Then the first tick leaves
both `knownPeers` and `peersToReap` empty and the second tick is the
identity (full state equality, which subsumes the four components named by
the claim). -/
theorem reap_idempotent_from_quiescent_state (s : SDHState) (n1 n2 : Nat)
    (h : s.knownPeers = []) :
    reapTick (reapTick s n1) n2 = reapTick s n1 := by
  have hp : (reapTick s n1).peersToReap = [] := by
    simp only [reapTick]
    rw [(reapFold_preserves n1 s.peersToReap _).2]
    exact h
  have hk : (reapTick s n1).knownPeers = [] := by
    simp only [reapTick]
    rw [(reapFold_preserves n1 s.peersToReap _).1]
  exact reapTick_quiescent _ n2 hp hk

/-- Witness for the amended claim C5, at the state reached one tick after
an advertise (its `knownPeers` has just been rolled over, so it is empty):
the third tick equals the second. -/
theorem reap_idempotent_from_quiescent_state_witness :
    (reapTick exampleAdvertised 400000).knownPeers = [] ∧
    reapTick (reapTick (reapTick exampleAdvertised 400000) 700000) 900000 =
      reapTick (reapTick exampleAdvertised 400000) 700000 :=
  ⟨by decide,
   reap_idempotent_from_quiescent_state (reapTick exampleAdvertised 400000) 700000 900000
     (by decide)⟩

/-- Claim C8: for every relay-ad/relay-unad fan-out attempt script long
enough to cover the bounded retries, a failed attempt is retried only when
the error classifies as `NetworkError` or `Timeout` (the number of
scheduled back-offs never exceeds the leading run of such failures), after
a delay of `relayAdRetryTime`, for at most `maxRelayAdAttempts` further
attempts; the operation always completes, with fatal transport errors
logged at error level, all other errors at warn level, and the callback
invoked with no error. -/
theorem sendRelay_retry_policy (cfg : RelayCfg) (script : List AttemptOutcome)
    (hlen : cfg.maxRelayAdAttempts < script.length) :
    delayCount (sendRelay cfg script).1 ≤ (script.takeWhile retryableOutcome).length ∧
    delayCount (sendRelay cfg script).1 ≤ cfg.maxRelayAdAttempts ∧
    (∀ ms, RelayEv.delayed ms ∈ (sendRelay cfg script).1 → ms = cfg.relayAdRetryTime) ∧
    (sendRelay cfg script).2 = true ∧
    (∀ e, RelayEv.calledBack e ∈ (sendRelay cfg script).1 → e = none) ∧
    (∀ err, RelayEv.loggedError err ∈ (sendRelay cfg script).1 → isFatalErr err = true) ∧
    (∀ err, RelayEv.loggedWarn err ∈ (sendRelay cfg script).1 → isFatalErr err = false) := by
  simp only [sendRelay]
  have hd := sendRelayGo_delay_bound cfg script 0
  have hw := evsWellFormed_mem cfg _ (sendRelayGo_wellFormed cfg script 0)
  have hc := sendRelayGo_completes cfg script 0
    (by intro h; rw [h] at hlen; simp at hlen) (by omega)
  exact ⟨hd.2, by have := hd.1; omega, hw.1, hc, hw.2.1, hw.2.2.1, hw.2.2.2⟩

/-- An attempt script: two retryable failures, then a fatal error. -/
def exampleRelayScript : List AttemptOutcome :=
  [AttemptOutcome.fail (some { codeName := some "NetworkError", fatal := false }),
   AttemptOutcome.fail (some { codeName := some "Timeout", fatal := false }),
   AttemptOutcome.fail (some { codeName := some "UnexpectedError", fatal := true })]

/-- Witness for claim C8, at the default configuration and a script of two
retryable failures followed by a fatal error. -/
theorem sendRelay_retry_policy_witness :
    RelayCfg.maxRelayAdAttempts {} < exampleRelayScript.length ∧
    (delayCount (sendRelay {} exampleRelayScript).1 ≤
        (exampleRelayScript.takeWhile retryableOutcome).length ∧
      delayCount (sendRelay {} exampleRelayScript).1 ≤ RelayCfg.maxRelayAdAttempts {} ∧
      (∀ ms, RelayEv.delayed ms ∈ (sendRelay {} exampleRelayScript).1 →
        ms = RelayCfg.relayAdRetryTime {}) ∧
      (sendRelay {} exampleRelayScript).2 = true ∧
      (∀ e, RelayEv.calledBack e ∈ (sendRelay {} exampleRelayScript).1 → e = none) ∧
      (∀ err, RelayEv.loggedError err ∈ (sendRelay {} exampleRelayScript).1 →
        isFatalErr err = true) ∧
      (∀ err, RelayEv.loggedWarn err ∈ (sendRelay {} exampleRelayScript).1 →
        isFatalErr err = false)) :=
  ⟨by decide, sendRelay_retry_policy {} exampleRelayScript (by decide)⟩

/-- Claim C9, counterexample: the claim says the encoded `ipv4` equals the
unsigned 32-bit big-endian value of the dotted quad and in particular is
non-negative when the first octet is 128 or greater.  For the peer
`128.0.0.1:80` the code yields `-2147483647`, not the unsigned value
`2147483649`, because `a << 24` is a signed 32-bit shift. -/
theorem convertHost_high_octet_negative :
    convertHost "128.0.0.1:80" = some { ipv4 := -2147483647, port := 80 } ∧
    (-2147483647 : Int) ≠ 2147483649 ∧ (-2147483647 : Int) < 0 :=
  ⟨by rfl, by decide, by decide⟩

/-- Claim C9, amended: for every well-formed peer host-port `a.b.c.d:p`
(octets at most 255), the discover entry is `{ip: {ipv4}, port}` where
`port` is the decimal port number and `ipv4` is the big-endian 32-bit
value of the four octets read back as a SIGNED (two's-complement) 32-bit
integer: the unsigned value minus 2^32 when the first octet is 128 or
greater — hence negative there, not non-negative as claimed. -/
theorem convertHost_signed_ipv4_amended
    (host ip portStr sa sb sc sd : String) (a b c d p : Nat)
    (hsplit : jsSplit host ':' = [ip, portStr])
    (hip : jsSplit ip '.' = [sa, sb, sc, sd])
    (hpa : jsParseInt10 sa = some (a : Int)) (hpb : jsParseInt10 sb = some (b : Int))
    (hpc : jsParseInt10 sc = some (c : Int)) (hpd : jsParseInt10 sd = some (d : Int))
    (hpp : jsParseInt10 portStr = some (p : Int))
    (ha : a ≤ 255) (hb : b ≤ 255) (hc : c ≤ 255) (hd : d ≤ 255) :
    convertHost host =
      some { ipv4 := ((a * 16777216 + b * 65536 + c * 256 + d : Nat) : Int) -
               (if 128 ≤ a then 4294967296 else 0)
             port := (p : Int) } ∧
    (128 ≤ a →
      ((a * 16777216 + b * 65536 + c * 256 + d : Nat) : Int) -
        (if 128 ≤ a then 4294967296 else 0) < 0) := by
  constructor
  · unfold convertHost
    rw [hsplit]
    simp only [List.getD_cons_zero, List.getD_cons_succ]
    rw [hpp, hip]
    simp only [List.getD_cons_zero, List.getD_cons_succ]
    rw [hpa, hpb, hpc, hpd]
    simp only [Option.some.injEq, DiscoverPeer.mk.injEq]
    refine ⟨?_, trivial⟩
    rw [jsShl_c8 c hc, jsShl_b16 b hb, jsShl_a24 a ha]
    push_cast
    split <;> omega
  · intro h128
    split
    · push_cast; omega
    · omega

/-- Witness for the amended claim C9, at the peer `128.0.0.1:80`. -/
theorem convertHost_signed_ipv4_amended_witness :
    convertHost "128.0.0.1:80" =
      some { ipv4 := ((128 * 16777216 + 0 * 65536 + 0 * 256 + 1 : Nat) : Int) -
               (if 128 ≤ (128 : Nat) then 4294967296 else 0)
             port := ((80 : Nat) : Int) } ∧
    (128 ≤ (128 : Nat) →
      ((128 * 16777216 + 0 * 65536 + 0 * 256 + 1 : Nat) : Int) -
        (if 128 ≤ (128 : Nat) then 4294967296 else 0) < 0) :=
  convertHost_signed_ipv4_amended "128.0.0.1:80" "128.0.0.1" "80" "128" "0" "0" "1"
    128 0 0 1 80 (by rfl) (by rfl) (by rfl) (by rfl) (by rfl) (by rfl) (by rfl)
    (by decide) (by decide) (by decide) (by decide)

/-- Claim C7: for every request that reaches the rate limiter (service
name present, not blocked, limiting enabled), the kill-switch checks run
before any RPS check — total first, per-service only on exit nodes — and
the per-service RPS check too is consulted only on exit nodes; a
kill-switched request is silently popped with no response frame (the pop
via `connection.ops`, which every remote connection has); and when the
kill switch does not trip but the total RPS counter is at or over its
limit, the request is rejected with
`Busy('hyperbahn node is rate-limited by the total rps of N')` where `N`
is the total limit. -/
theorem rateLimit_admission_order_and_busy (eg : Egress) (s : SDHState) (req : Req)
    (hsn : ¬ req.serviceName = "")
    (hnb : isBlocked s req.cn (some (jsOrStr req.rd req.serviceName)) = false)
    (hrl : s.rateLimiterEnabled = true) :
    noKsAfterRpsCheck (rateLimit eg s req.cn (jsOrStr req.rd req.serviceName)).2.2 = true ∧
    RLAction.checkKsTotal (jsOrStr req.rd req.serviceName) ∈
      (rateLimit eg s req.cn (jsOrStr req.rd req.serviceName)).2.2 ∧
    (∀ x, RLAction.checkKsService x ∈
        (rateLimit eg s req.cn (jsOrStr req.rd req.serviceName)).2.2 →
      SDHState.isExitFor eg s (jsOrStr req.rd req.serviceName) = true) ∧
    (∀ x, RLAction.checkRpsService x ∈
        (rateLimit eg s req.cn (jsOrStr req.rd req.serviceName)).2.2 →
      SDHState.isExitFor eg s (jsOrStr req.rd req.serviceName) = true) ∧
    ((rateLimit eg s req.cn (jsOrStr req.rd req.serviceName)).1 = RATE_LIMIT_KILLSWITCH →
      (∀ code msg, (handleRequest eg s req).2.1 ≠ ReqOutcome.errorFrame code msg) ∧
      (req.hasConnOps = true → (handleRequest eg s req).2.1 = ReqOutcome.popped)) ∧
    ((rateLimit eg s req.cn (jsOrStr req.rd req.serviceName)).1 = RATE_LIMIT_TOTAL →
      (rateLimit eg s req.cn
          (jsOrStr req.rd req.serviceName)).2.1.rateLimiter.totalRequestCounter.rps ≥
        (rateLimit eg s req.cn
          (jsOrStr req.rd req.serviceName)).2.1.rateLimiter.totalRequestCounter.rpsLimit ∧
      (handleRequest eg s req).2.1 =
        ReqOutcome.errorFrame "Busy"
          ("hyperbahn node is rate-limited by the total rps of " ++
            toString (rateLimit eg s req.cn
              (jsOrStr req.rd
                req.serviceName)).2.1.rateLimiter.totalRequestCounter.rpsLimit)) := by
  obtain ⟨h1, h2, h3, h4⟩ := rateLimit_order eg s req.cn (jsOrStr req.rd req.serviceName)
  refine ⟨h1, h2, h3, h4, ?_, ?_⟩
  · intro hks
    exact handleRequest_killswitch_pops eg s req hsn hnb hrl hks
  · intro ht
    exact ⟨rateLimit_total_at_limit eg s req.cn (jsOrStr req.rd req.serviceName) ht,
      handleRequest_total_busy eg s req hsn hnb hrl ht⟩

/-- A dispatcher with rate limiting enabled, and a plain request with a
caller name, used to witness claim C7. -/
def exampleRLHandler : SDHState :=
  mkServiceDispatchHandler { hostPort := "10.0.0.1:4040", rateLimiterEnabled := true }

/-- The request used to witness claim C7. -/
def exampleReq : Req :=
  { serviceName := "steve", cn := some "alice" }

/-- Witness for claim C7 at a concrete enabled-limiter state and request. -/
theorem rateLimit_admission_order_and_busy_witness :
    (¬ exampleReq.serviceName = "") ∧
    isBlocked exampleRLHandler exampleReq.cn
      (some (jsOrStr exampleReq.rd exampleReq.serviceName)) = false ∧
    exampleRLHandler.rateLimiterEnabled = true ∧
    (noKsAfterRpsCheck (rateLimit egAll exampleRLHandler exampleReq.cn
        (jsOrStr exampleReq.rd exampleReq.serviceName)).2.2 = true ∧
      RLAction.checkKsTotal (jsOrStr exampleReq.rd exampleReq.serviceName) ∈
        (rateLimit egAll exampleRLHandler exampleReq.cn
          (jsOrStr exampleReq.rd exampleReq.serviceName)).2.2 ∧
      (∀ x, RLAction.checkKsService x ∈
          (rateLimit egAll exampleRLHandler exampleReq.cn
            (jsOrStr exampleReq.rd exampleReq.serviceName)).2.2 →
        SDHState.isExitFor egAll exampleRLHandler
          (jsOrStr exampleReq.rd exampleReq.serviceName) = true) ∧
      (∀ x, RLAction.checkRpsService x ∈
          (rateLimit egAll exampleRLHandler exampleReq.cn
            (jsOrStr exampleReq.rd exampleReq.serviceName)).2.2 →
        SDHState.isExitFor egAll exampleRLHandler
          (jsOrStr exampleReq.rd exampleReq.serviceName) = true) ∧
      ((rateLimit egAll exampleRLHandler exampleReq.cn
          (jsOrStr exampleReq.rd exampleReq.serviceName)).1 = RATE_LIMIT_KILLSWITCH →
        (∀ code msg, (handleRequest egAll exampleRLHandler exampleReq).2.1 ≠
          ReqOutcome.errorFrame code msg) ∧
        (exampleReq.hasConnOps = true →
          (handleRequest egAll exampleRLHandler exampleReq).2.1 = ReqOutcome.popped)) ∧
      ((rateLimit egAll exampleRLHandler exampleReq.cn
          (jsOrStr exampleReq.rd exampleReq.serviceName)).1 = RATE_LIMIT_TOTAL →
        (rateLimit egAll exampleRLHandler exampleReq.cn
            (jsOrStr exampleReq.rd
              exampleReq.serviceName)).2.1.rateLimiter.totalRequestCounter.rps ≥
          (rateLimit egAll exampleRLHandler exampleReq.cn
            (jsOrStr exampleReq.rd
              exampleReq.serviceName)).2.1.rateLimiter.totalRequestCounter.rpsLimit ∧
        (handleRequest egAll exampleRLHandler exampleReq).2.1 =
          ReqOutcome.errorFrame "Busy"
            ("hyperbahn node is rate-limited by the total rps of " ++
              toString (rateLimit egAll exampleRLHandler exampleReq.cn
                (jsOrStr exampleReq.rd
                  exampleReq.serviceName)).2.1.rateLimiter.totalRequestCounter.rpsLimit))) :=
  ⟨by decide, by rfl, by rfl,
   rateLimit_admission_order_and_busy egAll exampleRLHandler exampleReq
     (by decide) (by rfl) (by rfl)⟩

/-- Claim C10 (code bug): at the second reap tick after an advertise with
partial affinity disabled, the drained collection maps the dead peer to its
reaped service names (here `steve`), yet `partialRanges` has no entry for
`steve` — the unguarded per-service step (lines 1348-1355) would fail with
a TypeError on `removeWorker`.  The code only avoids raising because the
loop header reads `.length` of the serviceName→lastRefresh map (which is
`undefined`), so the loop body never executes: after the tick the reaped
peer is deleted from the transport table yet still listed by the `steve`
service channel, and no per-service cleanup happened. -/
theorem reapSinglePeer_loop_never_runs_and_range_missing :
    alGet (reapTick exampleAdvertised 400000).peersToReap "1.1.1.1:4280" =
      some [("steve", 1000)] ∧
    alGet (reapTick exampleAdvertised 400000).partialRanges "steve" = none ∧
    reapSinglePeerServiceStep (reapTick exampleAdvertised 400000) "steve" "1.1.1.1:4280"
        700000 =
      Except.error "TypeError: cannot read property removeWorker of undefined" ∧
    ((alGet (reapTick (reapTick exampleAdvertised 400000) 700000).subChannels "steve").map
      SubChannel.peerNames) = some ["1.1.1.1:4280"] ∧
    alGet (reapTick (reapTick exampleAdvertised 400000) 700000).peers "1.1.1.1:4280" =
      none :=
  ⟨rfl, rfl, rfl, rfl, rfl⟩

/-- Claim C2 counterexample: on the lazy admission path, a frame declaring
service `steve` with routing delegate `mars` has its block check performed
with the declared name `steve` (line 328 passes `serviceName`, not
`nextService`), not the effective name `mars`; the eager path's block check
uses `mars` as the claim says. -/
theorem handleLazily_block_check_uses_declared_name :
    exampleLazyFrame.rd = some "mars" ∧
    exampleLazyFrame.serviceName = "steve" ∧
    (handleLazily egAll exampleHandler exampleLazyFrame).2.2 =
      [AdmissionCheck.blockFor "steve", AdmissionCheck.channelFor "mars"] ∧
    AdmissionCheck.blockFor "steve" ∈ (handleLazily egAll exampleHandler exampleLazyFrame).2.2 ∧
    AdmissionCheck.arg (AdmissionCheck.blockFor "steve") ≠ "mars" ∧
    (handleRequest egAll exampleHandler exampleRdReq).2.2 =
      [AdmissionCheck.blockFor "mars", AdmissionCheck.channelFor "mars"] :=
  ⟨rfl, rfl, by decide, by decide, by decide, by decide⟩

/-- Claim C2 (amended): with a non-empty routing delegate `r`, every
admission check on the eager path (`handleRequest`) uses the effective
name `r`; on the lazy path (`handleLazily`) the rate-limit check and the
service-channel lookup use `r`, but the block check uses the declared
`serviceName`. -/
theorem admission_checks_use_effective_name_amended
    (eg : Egress) (s : SDHState) (req : Req) (f : LazyFrame) (r : String)
    (hreq : req.rd = some r) (hf : f.rd = some r) (hr : r ≠ "") :
    (∀ c ∈ (handleRequest eg s req).2.2, AdmissionCheck.arg c = r) ∧
    (∀ c ∈ (handleLazily eg s f).2.2,
      AdmissionCheck.arg c =
        match c with
        | AdmissionCheck.blockFor _ => f.serviceName
        | _ => r) := by
  constructor
  · have h := checkArgsOk_mem r r _ (handleRequest_checkArgs eg s req r hreq hr)
    intro c hc
    have := h c hc
    cases c <;> simp_all
  · exact checkArgsOk_mem f.serviceName r _ (handleLazily_checkArgs eg s f r hf hr)

/-- Witness for the amended C2 theorem at the concrete example request and
frame, with the hypotheses discharged by `rfl`/`decide`. -/
theorem admission_checks_use_effective_name_amended_witness :
    (∀ c ∈ (handleRequest egAll exampleHandler exampleRdReq).2.2,
      AdmissionCheck.arg c = "mars") ∧
    (∀ c ∈ (handleLazily egAll exampleHandler exampleLazyFrame).2.2,
      AdmissionCheck.arg c =
        match c with
        | AdmissionCheck.blockFor _ => exampleLazyFrame.serviceName
        | _ => "mars") :=
  admission_checks_use_effective_name_amended egAll exampleHandler exampleRdReq
    exampleLazyFrame "mars" rfl rfl (by decide)

/-- Claim C6: after `updateServiceChannels` completes, every sub channel
that carries a (truthy) `serviceProxyMode` has it equal to `exit` exactly
when `egressNodes.isExitFor` holds for its service name and `forward`
otherwise — whatever mode each channel was in before — provided every mode
present was one of the two values the code ever assigns (`modesWF`). -/
theorem updateServiceChannels_mode_matches_isExitFor (eg : Egress) (s : SDHState) (now : Nat)
    (hwf : modesWF s = true) :
    ∀ k ch, alGet (updateServiceChannels eg s now).subChannels k = some ch →
      jsTruthy ch.serviceProxyMode = true →
      ch.serviceProxyMode = some (if eg.isExitFor k then "exit" else "forward") := by
  intro k ch h ht
  have hsplit : (updateServiceChannels eg s now).subChannels =
      (List.foldl (updateServiceChannelsStep eg now) s (alKeys s.subChannels)).subChannels := by
    simp only [updateServiceChannels]
    split <;> rfl
  rw [hsplit] at h
  have hinv0 : ∀ k ch, alGet s.subChannels k = some ch →
      jsTruthy ch.serviceProxyMode = true →
      ch.serviceProxyMode = some (if eg.isExitFor k then "exit" else "forward") ∨
      (k ∈ alKeys s.subChannels ∧
        (ch.serviceProxyMode = some "exit" ∨ ch.serviceProxyMode = some "forward")) := by
    intro k' ch' hg ht'
    refine Or.inr ⟨mem_alKeys_of_alGet _ _ _ hg, ?_⟩
    have hmem := alGet_mem _ _ _ hg
    have hp := (List.all_eq_true.mp hwf) (k', ch') hmem
    simp only [ht', Bool.not_true, Bool.false_or, Bool.or_eq_true, beq_iff_eq] at hp
    exact hp
  exact foldUSC_modes eg now _ s hinv0 k ch h ht

/-- Witness for the C6 theorem: the ring shrinks to one where this router
exits only `steve`; after `updateServiceChannels` the channels advertised
under the all-services ring (both in `exit` mode) satisfy the mode
characterization — `steve` stays `exit`, `bob` must be `forward`. -/
theorem updateServiceChannels_mode_matches_isExitFor_witness :
    modesWF exampleTwoServices = true ∧
    (∀ k ch,
      alGet (updateServiceChannels egSteveOnly exampleTwoServices 5000).subChannels k =
        some ch →
      jsTruthy ch.serviceProxyMode = true →
      ch.serviceProxyMode = some (if egSteveOnly.isExitFor k then "exit" else "forward")) :=
  ⟨by decide,
   updateServiceChannels_mode_matches_isExitFor egSteveOnly exampleTwoServices 5000 (by decide)⟩

end Spec2Proof
